import Mathlib

/-!
# QtWeatherApp: forecast ingestion, day classification and marker filtering

A shallow embedding of `Mountain.cpp`, `OpenMeteoForecastSource.cpp` and the
filter engine of `ConditionsNavigator.cpp`.

Modelling decisions
* `double` values come from JSON numbers, hence are finite; they are modelled
  as rationals. The source only compares them (with each other or with integer
  literals), which is exact in IEEE arithmetic.
* `QDate` is its Julian day number; a (valid) `QDateTime` is its milliseconds
  since the epoch.
* `QList<T>` is `List T`; `QList::at` and `operator[]` outside the bounds, and
  `QList::last` on an empty list, are errors (`none`).
* `QMap<K, V>` is an association list kept in ascending key order with one
  entry per key, as `QMap` iterates and as `QMap::values()` returns.
* The symbol of `mountainGraphic` is a field of the mountain.
-/

namespace QtWeatherApp

/-! ## Qt value types -/

/-- Finite `double`. -/
abbrev Double := ℚ

/-- Julian day number of a `QDate`. -/
abbrev QDate := Int

/-- Point in time, `QDateTime`, as milliseconds since the epoch. -/
structure QDateTime where
  msecs : Int
deriving DecidableEq, Repr

/-- From Qt: `QDateTime::addSecs(s)` is `addMSecs(s * 1000)`. -/
def QDateTime.addSecs (t : QDateTime) (s : Int) : QDateTime :=
  { msecs := t.msecs + s * 1000 }

/-- From Qt: `QList::at(i)` with `int i`; defined for `0 <= i < size()`. -/
def listAt {α : Type} (l : List α) (i : Int) : Option α :=
  if 0 ≤ i ∧ i < l.length then l[i.toNat]? else none

/-- From Qt: `QList::last()`; defined for a non-empty list. -/
def listLast {α : Type} (l : List α) : Option α :=
  l.getLast?

/-- From Qt: `QMap<K, V>` as its entries in ascending key order. -/
abbrev QMap (κ ν : Type) := List (κ × ν)

/-- From Qt: `map[k] = v`, replacing the value of an existing key. -/
def QMap.assign {κ ν : Type} [LinearOrder κ] (k : κ) (v : ν) : QMap κ ν → QMap κ ν
  | [] => [(k, v)]
  | (k1, v1) :: rest =>
    if k < k1 then (k, v) :: (k1, v1) :: rest
    else if k = k1 then (k, v) :: rest
    else (k1, v1) :: QMap.assign k v rest

/-- From Qt: `QMap::values()`, the values in ascending key order. -/
def QMap.values {κ ν : Type} (m : QMap κ ν) : List ν :=
  m.map Prod.snd

/-- From Qt: `QMap::keys()`, in ascending order. -/
def QMap.keys {κ ν : Type} (m : QMap κ ν) : List κ :=
  m.map Prod.fst

/-- From Qt: lookup of a key. -/
def QMap.find {κ ν : Type} [DecidableEq κ] (m : QMap κ ν) (k : κ) : Option ν :=
  (List.find? (fun e => decide (e.1 = k)) m).map Prod.snd

/-- From Qt: the non-const `map[k]` read: the stored value, or a
default-constructed value that is inserted under `k` first. -/
def QMap.subscript {κ ν : Type} [LinearOrder κ] [Inhabited ν] (m : QMap κ ν) (k : κ) :
    ν × QMap κ ν :=
  match QMap.find m k with
  | some v => (v, m)
  | none => (default, QMap.assign k default m)

/-! ## Mountain -/

/-- The four pin symbols of `ConditionsNavigator`
(`m_baseSymbol`, `m_greenSymbol`, `m_orangeSymbol`, `m_redSymbol`). -/
inductive Symbol where
  | base
  | green
  | orange
  | red
deriving DecidableEq, Repr

/-- Code table filled by `Mountain::initialiseDailyConditionsMap`. -/
def initialiseDailyConditionsMap : QMap Int String :=
  [(0, "Clear"), (1, "Mainly Clear"), (2, "Partly cloudy"), (3, "Overcast"),
   (45, "Fog"), (48, "Fog (with rime)"),
   (51, "Drizzle (light)"), (53, "Drizzle (moderate)"), (55, "Drizzle (dense)"),
   (56, "Drizzle (freezing)"), (57, "Drizzle (freezing)"),
   (61, "Rain (slight)"), (63, "Rain (moderate)"), (65, "Rain (heavy)"),
   (66, "Rain (freezing)"), (67, "Rain (freezing)"),
   (71, "Snow (slight)"), (73, "Snow (moderate)"), (75, "Snow (heavy)"), (77, "Snow"),
   (80, "Rain Showers (slight)"), (81, "Rain Showers (moderate)"),
   (82, "Rain Showers (violent)"),
   (85, "Snow Showers"), (86, "Snow Showers"),
   (95, "Thunderstorms"), (96, "Thunderstorms"), (99, "Thunderstorms")]

/-- Members of `class Mountain` (`Mountain.h`), with the symbol of its graphic. -/
structure Mountain where
  symbol : Symbol
  m_apparentTemperature_hourly : List Double
  m_dates : List QDate
  m_dateTime_hourly : List QDateTime
  m_dailyConditionsMap : QMap Int String
  m_elevation : Double
  m_latitude : Double
  m_longitude : Double
  m_name : String
  m_precipitation_daily : QMap QDate Double
  m_precipitation_hourly : List Double
  m_temperature_hourly : List Double
  m_visibility_hourly : List Int
  m_weatherconditions_daily : QMap QDate String
  m_winddirection_daily : QMap QDate String
  m_windgusts_daily : QMap QDate Double
  m_windspeed_daily : QMap QDate Double
deriving DecidableEq, Repr

/-- Constructor `Mountain::Mountain`: no data, the code table initialised;
the graphic gets `m_baseSymbol` in `displayMountainsOnMap`. -/
def Mountain.new (name : String) (latitude longitude elevation : Double) : Mountain :=
  { symbol := Symbol.base
    m_apparentTemperature_hourly := []
    m_dates := []
    m_dateTime_hourly := []
    m_dailyConditionsMap := initialiseDailyConditionsMap
    m_elevation := elevation
    m_latitude := latitude
    m_longitude := longitude
    m_name := name
    m_precipitation_daily := []
    m_precipitation_hourly := []
    m_temperature_hourly := []
    m_visibility_hourly := []
    m_weatherconditions_daily := []
    m_winddirection_daily := []
    m_windgusts_daily := []
    m_windspeed_daily := [] }

def Mountain.getDailyPrecipitation (m : Mountain) : List Double :=
  QMap.values m.m_precipitation_daily

def Mountain.getDailyWeatherConditions (m : Mountain) : List String :=
  QMap.values m.m_weatherconditions_daily

def Mountain.getDailyWindDirection (m : Mountain) : List String :=
  QMap.values m.m_winddirection_daily

def Mountain.getDailyWindGusts (m : Mountain) : List Double :=
  QMap.values m.m_windgusts_daily

def Mountain.getDailyWindSpeed (m : Mountain) : List Double :=
  QMap.values m.m_windspeed_daily

def Mountain.getDates (m : Mountain) : List QDate :=
  m.m_dates

/-- A `for (int counter = 0; counter < n; ++counter)` loop whose body may fail. -/
def forCounter {σ : Type} (n : Nat) (body : σ → Nat → Option σ) (init : σ) : Option σ :=
  List.foldlM body init (List.range n)

/-- Body shared by the daily setters: `date = m_dates[counter]`,
`value = newData[counter]` (an error past the end of `newData`),
`map[date] = convert(value)`. -/
def dailyStep {β γ : Type} (convert : β → γ) (dates : List QDate) (newData : List β)
    (acc : QMap QDate γ) (counter : Nat) : Option (QMap QDate γ) :=
  match dates[counter]? with
  | none => none
  | some date =>
    match newData[counter]? with
    | none => none
    | some value => some (QMap.assign date (convert value) acc)

/-- Method `Mountain::setDates`. -/
def Mountain.setDates (m : Mountain) (dates : List QDate) : Mountain :=
  { m with m_dates := dates }

/-- Method `Mountain::setDailyPrecipitation`. -/
def Mountain.setDailyPrecipitation (m : Mountain) (newData : List Double) : Option Mountain :=
  (forCounter m.m_dates.length (dailyStep id m.m_dates newData) []).map
    (fun r => { m with m_precipitation_daily := r })

/-- Body of the loop of `Mountain::setDailyWeatherConditions`; the read
`m_dailyConditionsMap[weatherCode]` may grow the code table. -/
def weatherStep (dates : List QDate) (newData : List Int)
    (acc : QMap Int String × QMap QDate String) (counter : Nat) :
    Option (QMap Int String × QMap QDate String) :=
  match dates[counter]? with
  | none => none
  | some date =>
    match newData[counter]? with
    | none => none
    | some weatherCode =>
      let r := QMap.subscript acc.1 weatherCode
      some (r.2, QMap.assign date r.1 acc.2)

/-- Method `Mountain::setDailyWeatherConditions`. -/
def Mountain.setDailyWeatherConditions (m : Mountain) (newData : List Int) : Option Mountain :=
  (forCounter m.m_dates.length (weatherStep m.m_dates newData) (m.m_dailyConditionsMap, [])).map
    (fun r => { m with m_dailyConditionsMap := r.1, m_weatherconditions_daily := r.2 })

/-- Method `Mountain::setDailyWindGusts`. -/
def Mountain.setDailyWindGusts (m : Mountain) (newData : List Double) : Option Mountain :=
  (forCounter m.m_dates.length (dailyStep id m.m_dates newData) []).map
    (fun r => { m with m_windgusts_daily := r })

/-- Method `Mountain::setDailyWindSpeed`. -/
def Mountain.setDailyWindSpeed (m : Mountain) (newData : List Double) : Option Mountain :=
  (forCounter m.m_dates.length (dailyStep id m.m_dates newData) []).map
    (fun r => { m with m_windspeed_daily := r })

def Mountain.getHourlyApparentTemperature (m : Mountain) : List Double :=
  m.m_apparentTemperature_hourly

def Mountain.setHourlyApparentTemperature (m : Mountain) (newData : List Double) : Mountain :=
  { m with m_apparentTemperature_hourly := newData }

def Mountain.getHourlyDateTime (m : Mountain) : List QDateTime :=
  m.m_dateTime_hourly

/-- Method `Mountain::setHourlyDateTime`: stores the list and appends its last
entry plus one hour; `none` when `last()` is taken of an empty list. -/
def Mountain.setHourlyDateTime (m : Mountain) (newData : List QDateTime) : Option Mountain :=
  match listLast newData with
  | none => none
  | some lastMeasurement =>
    some { m with m_dateTime_hourly := newData ++ [lastMeasurement.addSecs 3600] }

def Mountain.getHourlyPrecipitation (m : Mountain) : List Double :=
  m.m_precipitation_hourly

def Mountain.setHourlyPrecipitation (m : Mountain) (newData : List Double) : Mountain :=
  { m with m_precipitation_hourly := newData }

def Mountain.getHourlyTemperature (m : Mountain) : List Double :=
  m.m_temperature_hourly

def Mountain.setHourlyTemperature (m : Mountain) (newData : List Double) : Mountain :=
  { m with m_temperature_hourly := newData }

def Mountain.getHourlyVisibility (m : Mountain) : List Int :=
  m.m_visibility_hourly

def Mountain.setHourlyVisibility (m : Mountain) (newData : List Int) : Mountain :=
  { m with m_visibility_hourly := newData }

/-! ## Process-wide extrema -/

/-- The three static members of `Mountain`. -/
structure Extrema where
  maxPrecipitationMeasurement : Double
  maxTemperatureMeasurement : Double
  minTemperatureMeasurement : Double
deriving DecidableEq, Repr

/-- Static initialisation in `Mountain.cpp`: all three are `0.0`. -/
def Extrema.initial : Extrema :=
  { maxPrecipitationMeasurement := 0
    maxTemperatureMeasurement := 0
    minTemperatureMeasurement := 0 }

def getMaxPrecipitationMeasurement (g : Extrema) : Double :=
  g.maxPrecipitationMeasurement

def getMaxTemperatureMeasurement (g : Extrema) : Double :=
  g.maxTemperatureMeasurement

def getMinTemperatureMeasurement (g : Extrema) : Double :=
  g.minTemperatureMeasurement

/-- From the C++ library: `std::max_element`, `none` for the end iterator. -/
def maxElement : List Double → Option Double
  | [] => none
  | x :: xs => some (xs.foldl (fun largest y => if largest < y then y else largest) x)

/-- From the C++ library: `std::min_element`, `none` for the end iterator. -/
def minElement : List Double → Option Double
  | [] => none
  | x :: xs => some (xs.foldl (fun smallest y => if y < smallest then y else smallest) x)

/-- Method `Mountain::identifyMaxAndMinValues`, on the statics `g`. -/
def Mountain.identifyMaxAndMinValues (m : Mountain) (g : Extrema) : Extrema :=
  let defaultMaxHourlyPrecipitation : Double := 30
  let defaultMaxHourlyTemperature : Double := 30
  let defaultMinHourlyTemperature : Double := -10
  let max_precipitation_at_mountain :=
    (maxElement m.m_precipitation_hourly).getD defaultMaxHourlyPrecipitation
  let max_temperature_at_mountain :=
    (maxElement m.m_temperature_hourly).getD defaultMaxHourlyTemperature
  let min_temperature_at_mountain :=
    (minElement m.m_apparentTemperature_hourly).getD defaultMinHourlyTemperature
  { maxPrecipitationMeasurement :=
      if max_precipitation_at_mountain > g.maxPrecipitationMeasurement
      then max_precipitation_at_mountain else g.maxPrecipitationMeasurement
    maxTemperatureMeasurement :=
      if max_temperature_at_mountain > g.maxTemperatureMeasurement
      then max_temperature_at_mountain else g.maxTemperatureMeasurement
    minTemperatureMeasurement :=
      if min_temperature_at_mountain < g.minTemperatureMeasurement
      then min_temperature_at_mountain else g.minTemperatureMeasurement }

/-! ## Response payload (`OpenMeteoForecastSource`) -/

/-- From Qt: the `QVariant` values that `QJsonObject::toVariantMap` produces. -/
inductive QVariant where
  | invalid
  | null
  | bool (b : Bool)
  | number (x : Double)
  | string (s : String)
  | list (items : List QVariant)
  | map (entries : List (String × QVariant))

abbrev QVariantMap := List (String × QVariant)

/-- From Qt: `QMap::value(key)`, a default-constructed `QVariant` for an absent key. -/
def QVariantMap.value (m : QVariantMap) (key : String) : QVariant :=
  match List.find? (fun e => decide (e.1 = key)) m with
  | some e => e.2
  | none => QVariant.invalid

/-- From Qt: `QVariant::toList`, empty for a value that is not a list. -/
def QVariant.toList : QVariant → List QVariant
  | QVariant.list items => items
  | _ => []

/-- From Qt: `QVariant::toMap`, empty for a value that is not a map. -/
def QVariant.toMap : QVariant → QVariantMap
  | QVariant.map entries => entries
  | _ => []

/-- From Qt: the four conversions `QVariant::value<T>()` the source uses. They are
total; their results on each value are left open. -/
structure VariantConversions where
  toDateTime : QVariant → QDateTime
  toDate : QVariant → QDate
  toDouble : QVariant → Double
  toInt : QVariant → Int

/-- Template `OpenMeteoForecastSource::convertQVariantListToTypedList`. -/
def convertQVariantListToTypedList {τ : Type} (value : QVariant → τ)
    (qVariantList : List QVariant) : List τ :=
  qVariantList.foldl (fun convertedList element => convertedList ++ [value element]) []

/-- Method `OpenMeteoForecastSource::assignHourlyDataToMountain`. -/
def assignHourlyDataToMountain (cv : VariantConversions) (hourlyData : QVariantMap)
    (mountain : Mountain) : Option Mountain :=
  let time := convertQVariantListToTypedList cv.toDateTime (hourlyData.value "time").toList
  match mountain.setHourlyDateTime time with
  | none => none
  | some m1 =>
    let apparentTemperature :=
      convertQVariantListToTypedList cv.toDouble (hourlyData.value "apparent_temperature").toList
    let m2 := m1.setHourlyApparentTemperature apparentTemperature
    let precipitation :=
      convertQVariantListToTypedList cv.toDouble (hourlyData.value "precipitation").toList
    let m3 := m2.setHourlyPrecipitation precipitation
    let temperature2m :=
      convertQVariantListToTypedList cv.toDouble (hourlyData.value "temperature_2m").toList
    let m4 := m3.setHourlyTemperature temperature2m
    let visibility :=
      convertQVariantListToTypedList cv.toInt (hourlyData.value "visibility").toList
    some (m4.setHourlyVisibility visibility)

/-- Method `Mountain::convertWindDirectionToOrientation`. -/
def convertWindDirectionToOrientation (windDirection : Int) : String :=
  if windDirection ≥ 338 ∧ windDirection ≤ 360 then "N"
  else if windDirection ≥ 0 ∧ windDirection ≤ 22 then "N"
  else if windDirection ≥ 23 ∧ windDirection ≤ 67 then "NE"
  else if windDirection ≥ 68 ∧ windDirection ≤ 112 then "E"
  else if windDirection ≥ 113 ∧ windDirection ≤ 157 then "SE"
  else if windDirection ≥ 158 ∧ windDirection ≤ 202 then "S"
  else if windDirection ≥ 203 ∧ windDirection ≤ 247 then "SW"
  else if windDirection ≥ 248 ∧ windDirection ≤ 292 then "W"
  else if windDirection ≥ 293 ∧ windDirection ≤ 337 then "NW"
  else "?"

/-- Method `Mountain::setDailyWindDirection`. -/
def Mountain.setDailyWindDirection (m : Mountain) (newData : List Int) : Option Mountain :=
  (forCounter m.m_dates.length
      (dailyStep convertWindDirectionToOrientation m.m_dates newData) []).map
    (fun r => { m with m_winddirection_daily := r })

/-- Method `OpenMeteoForecastSource::assignDailyDataToMountain`. -/
def assignDailyDataToMountain (cv : VariantConversions) (dailyData : QVariantMap)
    (mountain : Mountain) : Option Mountain :=
  let date := convertQVariantListToTypedList cv.toDate (dailyData.value "time").toList
  let m0 := mountain.setDates date
  let weatherCode :=
    convertQVariantListToTypedList cv.toInt (dailyData.value "weathercode").toList
  match m0.setDailyWeatherConditions weatherCode with
  | none => none
  | some m1 =>
    let windDirection := convertQVariantListToTypedList cv.toInt
      (dailyData.value "winddirection_10m_dominant").toList
    match m1.setDailyWindDirection windDirection with
    | none => none
    | some m2 =>
      let windGusts := convertQVariantListToTypedList cv.toDouble
        (dailyData.value "windgusts_10m_max").toList
      match m2.setDailyWindGusts windGusts with
      | none => none
      | some m3 =>
        let windSpeed := convertQVariantListToTypedList cv.toDouble
          (dailyData.value "windspeed_10m_max").toList
        match m3.setDailyWindSpeed windSpeed with
        | none => none
        | some m4 =>
          let precipitation := convertQVariantListToTypedList cv.toDouble
            (dailyData.value "precipitation_sum").toList
          m4.setDailyPrecipitation precipitation

/-- From Qt: a parsed `QJsonDocument`: null (also for bytes that are not JSON), an
array, or an object, the latter as the map `QJsonObject::toVariantMap` gives. -/
inductive QJsonDocument where
  | null
  | array (items : List QVariant)
  | object (members : QVariantMap)

/-- Method `OpenMeteoForecastSource::processResponse` for a mountain that is not
`nullptr`, on the mountain and the static extrema. -/
def processResponse (cv : VariantConversions) (response : QJsonDocument)
    (mountain : Mountain) (g : Extrema) : Option (Mountain × Extrema) :=
  match response with
  | QJsonDocument.object jsonObject =>
    if jsonObject.isEmpty then some (mountain, g)
    else
      let hourlyData := (jsonObject.value "hourly").toMap
      match assignHourlyDataToMountain cv hourlyData mountain with
      | none => none
      | some m1 =>
        let dailyData := (jsonObject.value "daily").toMap
        match assignDailyDataToMountain cv dailyData m1 with
        | none => none
        | some m2 => some (m2, m2.identifyMaxAndMinValues g)
  | _ => some (mountain, g)

/-! ## Day classification (`ConditionsNavigator.cpp`) -/

/-- Method `ConditionsNavigator::conditionsDescriptionIsConcerning`. -/
def conditionsDescriptionIsConcerning (condition : String) : Bool :=
  if condition = "Clear" ∨ condition = "Mainly Clear" ∨
      condition = "Partly cloudy" ∨ condition = "Overcast" ∨
      condition = "Unknown" then false
  else true

/-- Method `ConditionsNavigator::anyBadConditionForecastForDay`; `none` when one
of the three `at(day)` reads is out of bounds. -/
def anyBadConditionForecastForDay (mountain : Mountain) (day : Int) : Option Bool :=
  match listAt mountain.getDailyWeatherConditions day with
  | none => none
  | some condition =>
    match listAt mountain.getDailyWindSpeed day with
    | none => none
    | some windspeed =>
      match listAt mountain.getDailyPrecipitation day with
      | none => none
      | some precipitation =>
        if windspeed ≥ 40 ∨ precipitation ≥ 5 ∨ condition = "Thunderstorms" then some true
        else some false

/-- Method `ConditionsNavigator::anyMarginalConditionForecastForDay`; `none` when
one of the three `at(day)` reads is out of bounds. -/
def anyMarginalConditionForecastForDay (mountain : Mountain) (day : Int) : Option Bool :=
  match listAt mountain.getDailyWeatherConditions day with
  | none => none
  | some condition =>
    match listAt mountain.getDailyWindSpeed day with
    | none => none
    | some windspeed =>
      match listAt mountain.getDailyPrecipitation day with
      | none => none
      | some precipitation =>
        if windspeed ≥ 20 ∨ precipitation ≥ 1 ∨
            conditionsDescriptionIsConcerning condition = true then some true
        else some false

/-! ## Filter engine (`ConditionsNavigator.cpp`) -/

/-- A QML filter toggle: its object name and its `checked` and `text` properties. -/
structure Toggle where
  objectName : String
  checked : Bool
  text : String
deriving DecidableEq, Repr

/-- The members of `ConditionsNavigator` the filter engine uses. -/
structure ConditionsNavigator where
  m_filterToggles : List Toggle
  m_mountains : List Mountain
deriving DecidableEq, Repr

/-- Method `ConditionsNavigator::clearCurrentFilter`. -/
def clearCurrentFilter (s : ConditionsNavigator) : ConditionsNavigator :=
  { m_filterToggles := s.m_filterToggles.map (fun toggle => { toggle with checked := false })
    m_mountains := s.m_mountains.map (fun mountain => { mountain with symbol := Symbol.base }) }

/-- Body of the loop of `identifyWhichFilterOptionsAreChecked`; `none` when
`m_filterToggles.at(index)` is out of bounds. -/
def identifyStep (toggles : List Toggle) (indicesOfSelectedToggleOptions : List Int)
    (index : Nat) : Option (List Int) :=
  match listAt toggles (index : Int) with
  | none => none
  | some toggle =>
    if toggle.checked then some (indicesOfSelectedToggleOptions ++ [(index : Int)])
    else some indicesOfSelectedToggleOptions

/-- Method `ConditionsNavigator::identifyWhichFilterOptionsAreChecked`. -/
def identifyWhichFilterOptionsAreChecked (s : ConditionsNavigator) : Option (List Int) :=
  let daysInAWeek := 7
  forCounter daysInAWeek (identifyStep s.m_filterToggles) []

/-- First loop of `applyFilter` for one mountain: the value of `MoveToNextMountain`
when the loop is left (it breaks at the first bad day). -/
def badLoop (mountain : Mountain) : List Int → Option Bool
  | [] => some false
  | day :: rest =>
    match anyBadConditionForecastForDay mountain day with
    | none => none
    | some true => some true
    | some false => badLoop mountain rest

/-- Second loop of `applyFilter` for one mountain (it breaks at the first
marginal day). -/
def marginalLoop (mountain : Mountain) : List Int → Option Bool
  | [] => some false
  | day :: rest =>
    match anyMarginalConditionForecastForDay mountain day with
    | none => none
    | some true => some true
    | some false => marginalLoop mountain rest

/-- Body of the outer loop of `ConditionsNavigator::applyFilter`. -/
def applyFilterToMountain (mountain : Mountain) (selectedDays : List Int) : Option Mountain :=
  let green := { mountain with symbol := Symbol.green }
  match badLoop green selectedDays with
  | none => none
  | some true => some { green with symbol := Symbol.red }
  | some false =>
    match marginalLoop green selectedDays with
    | none => none
    | some true => some { green with symbol := Symbol.orange }
    | some false => some green

/-- Outer loop of `ConditionsNavigator::applyFilter` over `m_mountains`. -/
def applyFilterLoop (selectedDays : List Int) : List Mountain → Option (List Mountain)
  | [] => some []
  | mountain :: rest =>
    match applyFilterToMountain mountain selectedDays with
    | none => none
    | some recoloured =>
      match applyFilterLoop selectedDays rest with
      | none => none
      | some others => some (recoloured :: others)

/-- Method `ConditionsNavigator::applyFilter`. -/
def applyFilter (s : ConditionsNavigator) (selectedDays : List Int) :
    Option ConditionsNavigator :=
  (applyFilterLoop selectedDays s.m_mountains).map (fun ms => { s with m_mountains := ms })

/-- Method `ConditionsNavigator::filterOptionsChanged`. -/
def filterOptionsChanged (s : ConditionsNavigator) : Option ConditionsNavigator :=
  match identifyWhichFilterOptionsAreChecked s with
  | none => none
  | some indicesOfSelectedDays =>
    if indicesOfSelectedDays.isEmpty then some (clearCurrentFilter s)
    else applyFilter s indicesOfSelectedDays

/-- A mountain with a one-day forecast, used to evaluate the classifier. -/
def oneDayMountain (condition : String) (windspeed precipitation : Double) : Mountain :=
  { Mountain.new "Ben Nevis" 0 0 0 with
    m_dates := [0]
    m_weatherconditions_daily := [(0, condition)]
    m_windspeed_daily := [(0, windspeed)]
    m_precipitation_daily := [(0, precipitation)] }

/-- The three `at(day)` reads of the classifiers are in bounds. -/
def dayInRange (mountain : Mountain) (day : Int) : Prop :=
  0 ≤ day ∧ day < mountain.getDailyWeatherConditions.length ∧
    day < mountain.getDailyWindSpeed.length ∧ day < mountain.getDailyPrecipitation.length

/-- Worst case over the selected days, in the words of the specification: red
exactly when some selected day is bad, orange exactly when no selected day is
bad and some selected day is marginal, green exactly when no selected day is bad
or marginal. -/
def IsWorstCaseColour (mountain : Mountain) (selectedDays : List Int) (colour : Symbol) : Prop :=
  (colour = Symbol.red ↔
      ∃ day ∈ selectedDays, anyBadConditionForecastForDay mountain day = some true) ∧
    (colour = Symbol.orange ↔
      (∀ day ∈ selectedDays, anyBadConditionForecastForDay mountain day = some false) ∧
        ∃ day ∈ selectedDays, anyMarginalConditionForecastForDay mountain day = some true) ∧
    (colour = Symbol.green ↔
      (∀ day ∈ selectedDays, anyBadConditionForecastForDay mountain day = some false) ∧
        ∀ day ∈ selectedDays, anyMarginalConditionForecastForDay mountain day = some false)

/-- A mountain with a three-day forecast: day 0 is OK, day 1 marginal, day 2 bad. -/
def threeDayMountain : Mountain :=
  { Mountain.new "Snowdon" 0 0 0 with
    m_dates := [0, 1, 2]
    m_weatherconditions_daily := [(0, "Clear"), (1, "Fog"), (2, "Thunderstorms")]
    m_windspeed_daily := [(0, 5), (1, 10), (2, 15)]
    m_precipitation_daily := [(0, 0), (1, 0), (2, 2)] }

/-- A navigator with seven unchecked toggles and two coloured mountains. -/
def exampleNavigator : ConditionsNavigator :=
  { m_filterToggles :=
      [⟨"day1FilterOption", false, "Mon"⟩, ⟨"day2FilterOption", false, "Tue"⟩,
       ⟨"day3FilterOption", false, "Wed"⟩, ⟨"day4FilterOption", false, "Thu"⟩,
       ⟨"day5FilterOption", false, "Fri"⟩, ⟨"day6FilterOption", false, "Sat"⟩,
       ⟨"day7FilterOption", false, "Sun"⟩]
    m_mountains :=
      [{ threeDayMountain with symbol := Symbol.red },
       { threeDayMountain with
         symbol := Symbol.orange
         m_name := "Scafell Pike"
         m_weatherconditions_daily := [(0, "Overcast"), (1, "Clear"), (2, "Fog")] }] }

instance (mountain : Mountain) (day : Int) : Decidable (dayInRange mountain day) := by
  unfold dayInRange
  infer_instance

example : (applyFilter exampleNavigator [0, 1, 2]).map
    (fun s => s.m_mountains.map Mountain.symbol) = some [Symbol.red, Symbol.orange] := by decide
example : (applyFilter exampleNavigator [1, 0]).map
    (fun s => s.m_mountains.map Mountain.symbol) = some [Symbol.orange, Symbol.green] := by decide
example : applyFilter exampleNavigator [2, 3] = none := by decide
example : filterOptionsChanged exampleNavigator = some (clearCurrentFilter exampleNavigator) := by
  decide

/-- Ingestion of a one-day forecast into a fresh mountain through the setters, in
the order of `assignDailyDataToMountain`. -/
def ingestOneDay (weatherCode : Int) (windspeed precipitation : Double) : Option Mountain :=
  match ((Mountain.new "Ben Nevis" 0 0 0).setDates [0]).setDailyWeatherConditions
      [weatherCode] with
  | none => none
  | some m1 =>
    match m1.setDailyWindSpeed [windspeed] with
    | none => none
    | some m2 => m2.setDailyPrecipitation [precipitation]

/-- Sample conversions: numbers convert to themselves, anything else to zero. -/
def exampleConversions : VariantConversions :=
  { toDateTime := fun v =>
      match v with
      | QVariant.number x => { msecs := x.num }
      | _ => { msecs := 0 }
    toDate := fun v =>
      match v with
      | QVariant.number x => x.num
      | _ => 0
    toDouble := fun v =>
      match v with
      | QVariant.number x => x
      | _ => 0
    toInt := fun v =>
      match v with
      | QVariant.number x => x.num
      | _ => 0 }

/-- An `hourly` object whose five arrays have one entry each. -/
def oneHourPayload : QVariantMap :=
  [("apparent_temperature", QVariant.list [QVariant.number 3]),
   ("precipitation", QVariant.list [QVariant.number 1]),
   ("temperature_2m", QVariant.list [QVariant.number 5]),
   ("time", QVariant.list [QVariant.number 1700000000000]),
   ("visibility", QVariant.list [QVariant.number 24000])]

/-- From Qt: `QJsonDocument::isObject`. -/
def QJsonDocument.isObject : QJsonDocument → Bool
  | QJsonDocument.object _ => true
  | _ => false

/-! ## Filter toggles of the view (`ConditionsNavigator.cpp`) -/

/-- From Qt: `QDate::addDays`. -/
def QDate.addDays (date : QDate) (ndays : Int) : QDate :=
  date + ndays

/-- From Qt: `QDate::dayOfWeek`, 1 for Monday to 7 for Sunday; Julian day 0 is a
Monday. The remainder is the truncating one of C++. -/
def QDate.dayOfWeek (date : QDate) : Int :=
  if date ≥ 0 then Int.tmod date 7 + 1 else Int.tmod (date + 1) 7 + 7

/-- From Qt: `QDate::toString("ddd")`, the abbreviated English day name. -/
def QDate.toStringDdd (date : QDate) : String :=
  match QDate.dayOfWeek date with
  | 1 => "Mon"
  | 2 => "Tue"
  | 3 => "Wed"
  | 4 => "Thu"
  | 5 => "Fri"
  | 6 => "Sat"
  | _ => "Sun"

/-- From Qt: `findChild<QObject*>(name)` on the objects below the view: the first
one with that object name, if any. -/
def findChild (children : List Toggle) (name : String) : Option Toggle :=
  List.find? (fun child => decide (child.objectName = name)) children

/-- The name `templateForToggleNames.arg(QString::number(i))`. -/
def filterOptionName (i : Nat) : String :=
  "day" ++ toString i ++ "FilterOption"

/-- Method `ConditionsNavigator::getReferencesToFilterOptionToggles`, on the
objects below `m_mapView`. -/
def getReferencesToFilterOptionToggles (mapViewChildren : List Toggle)
    (s : ConditionsNavigator) : ConditionsNavigator :=
  let numberOfFilterOptions := 7
  { s with
    m_filterToggles :=
      (List.range' 1 numberOfFilterOptions).foldl
        (fun toggles i =>
          match findChild mapViewChildren (filterOptionName i) with
          | some filterOption => toggles ++ [filterOption]
          | none => toggles)
        [] }

/-- Body of the loop of `assignLabelsToUIFilterOptions`; `none` when
`m_filterToggles.at(counter)` is out of bounds. -/
def labelStep (currentDate : QDate) (toggles : List Toggle) (counter : Nat) :
    Option (List Toggle) :=
  match listAt toggles (counter : Int) with
  | none => none
  | some toggle =>
    some (toggles.set counter
      { toggle with text := QDate.toStringDdd (QDate.addDays currentDate (counter : Int)) })

/-- Method `ConditionsNavigator::assignLabelsToUIFilterOptions`, with the value of
`QDate::currentDate()`. -/
def assignLabelsToUIFilterOptions (currentDate : QDate) (s : ConditionsNavigator) :
    Option ConditionsNavigator :=
  (forCounter 7 (labelStep currentDate) s.m_filterToggles).map
    (fun toggles => { s with m_filterToggles := toggles })

/-- The seven toggles of the view, in the order of the QML file, with another
object between them. -/
def exampleViewChildren : List Toggle :=
  [⟨"day1FilterOption", false, ""⟩, ⟨"day2FilterOption", false, ""⟩,
   ⟨"clearFilterButton", false, "Clear"⟩,
   ⟨"day3FilterOption", false, ""⟩, ⟨"day4FilterOption", false, ""⟩,
   ⟨"day5FilterOption", false, ""⟩, ⟨"day6FilterOption", false, ""⟩,
   ⟨"day7FilterOption", false, ""⟩]

/-- A navigator before `setMapView`. -/
def emptyNavigator : ConditionsNavigator :=
  { m_filterToggles := [], m_mountains := [] }

example : QDate.toStringDdd 2460614 = "Wed" := by decide
example : filterOptionName 3 = "day3FilterOption" := by decide
example : ((assignLabelsToUIFilterOptions 2460614
    (getReferencesToFilterOptionToggles exampleViewChildren emptyNavigator)).map
      (fun s => s.m_filterToggles.map Toggle.text)) =
    some ["Wed", "Thu", "Fri", "Sat", "Sun", "Mon", "Tue"] := by decide

/-! ## Daily payload -/

/-- The description `m_dailyConditionsMap[weatherCode]` reads from a table. -/
def weatherDescription (table : QMap Int String) (weatherCode : Int) : String :=
  (QMap.subscript table weatherCode).1

/-- The six typed lists `assignDailyDataToMountain` takes from a `daily` object. -/
def dailyDates (cv : VariantConversions) (dailyData : QVariantMap) : List QDate :=
  convertQVariantListToTypedList cv.toDate (dailyData.value "time").toList

def dailyWeatherCodes (cv : VariantConversions) (dailyData : QVariantMap) : List Int :=
  convertQVariantListToTypedList cv.toInt (dailyData.value "weathercode").toList

def dailyWindDirections (cv : VariantConversions) (dailyData : QVariantMap) : List Int :=
  convertQVariantListToTypedList cv.toInt (dailyData.value "winddirection_10m_dominant").toList

def dailyWindGusts (cv : VariantConversions) (dailyData : QVariantMap) : List Double :=
  convertQVariantListToTypedList cv.toDouble (dailyData.value "windgusts_10m_max").toList

def dailyWindSpeeds (cv : VariantConversions) (dailyData : QVariantMap) : List Double :=
  convertQVariantListToTypedList cv.toDouble (dailyData.value "windspeed_10m_max").toList

def dailyPrecipitations (cv : VariantConversions) (dailyData : QVariantMap) : List Double :=
  convertQVariantListToTypedList cv.toDouble (dailyData.value "precipitation_sum").toList

/-- A `daily` object as the weather API sends it: strictly ascending dates and
five arrays of the length of the dates. -/
def DailyPayloadAligned (cv : VariantConversions) (dailyData : QVariantMap) : Prop :=
  (dailyDates cv dailyData).Pairwise (fun a b => a < b) ∧
    (dailyWeatherCodes cv dailyData).length = (dailyDates cv dailyData).length ∧
    (dailyWindDirections cv dailyData).length = (dailyDates cv dailyData).length ∧
    (dailyWindGusts cv dailyData).length = (dailyDates cv dailyData).length ∧
    (dailyWindSpeeds cv dailyData).length = (dailyDates cv dailyData).length ∧
    (dailyPrecipitations cv dailyData).length = (dailyDates cv dailyData).length

instance (cv : VariantConversions) (dailyData : QVariantMap) :
    Decidable (DailyPayloadAligned cv dailyData) := by
  unfold DailyPayloadAligned
  infer_instance

/-- A `daily` object for three days with the weather codes 95, 45 and 4. -/
def threeDayPayload : QVariantMap :=
  [("precipitation_sum",
      QVariant.list [QVariant.number 0, QVariant.number 0, QVariant.number 0]),
   ("time",
      QVariant.list [QVariant.number 2460614, QVariant.number 2460615, QVariant.number 2460616]),
   ("weathercode",
      QVariant.list [QVariant.number 95, QVariant.number 45, QVariant.number 4]),
   ("winddirection_10m_dominant",
      QVariant.list [QVariant.number 0, QVariant.number 90, QVariant.number 400]),
   ("windgusts_10m_max",
      QVariant.list [QVariant.number 80, QVariant.number 10, QVariant.number 12]),
   ("windspeed_10m_max",
      QVariant.list [QVariant.number 3, QVariant.number 4, QVariant.number 5])]

example : DailyPayloadAligned exampleConversions threeDayPayload := by decide
example : (assignDailyDataToMountain exampleConversions threeDayPayload
    (Mountain.new "Ben Nevis" 0 0 0)).map Mountain.getDailyWeatherConditions =
    some ["Thunderstorms", "Fog", ""] := by decide
example : (assignDailyDataToMountain exampleConversions threeDayPayload
    (Mountain.new "Ben Nevis" 0 0 0)).map Mountain.getDailyWindDirection =
    some ["N", "E", "?"] := by decide

/-- Two mountains whose largest hourly precipitation is 10 and 20. -/
def mountainWithMax10 : Mountain :=
  { Mountain.new "Ben Nevis" 0 0 0 with m_precipitation_hourly := [2, 10, 7] }

def mountainWithMax20 : Mountain :=
  { Mountain.new "Snowdon" 0 0 0 with m_precipitation_hourly := [20, 1] }

example : getMaxPrecipitationMeasurement (mountainWithMax20.identifyMaxAndMinValues
    (mountainWithMax10.identifyMaxAndMinValues Extrema.initial)) = 20 := by decide

/-- A response object with members but without an `hourly` object. -/
def responseWithoutHourly : QVariantMap :=
  [("latitude", QVariant.number 57), ("longitude", QVariant.number (-5))]

/-- A response object whose `hourly` object has an empty `time` array. -/
def responseWithEmptyTime : QVariantMap :=
  [("hourly", QVariant.map
      [("temperature_2m", QVariant.list []), ("time", QVariant.list [])])]

example : (processResponse exampleConversions (QJsonDocument.object responseWithoutHourly)
    (Mountain.new "Ben Nevis" 0 0 0) Extrema.initial).isNone = true := by decide
example : (processResponse exampleConversions (QJsonDocument.object responseWithEmptyTime)
    (Mountain.new "Ben Nevis" 0 0 0) Extrema.initial).isNone = true := by decide

/-- Assignments of a list of entries, one after the other. -/
def assignAll {γ : Type} (entries : List (QDate × γ)) (init : QMap QDate γ) : QMap QDate γ :=
  entries.foldl (fun acc e => QMap.assign e.1 e.2 acc) init

/-- What a daily map holds after a setter ran over `dates` and `values`, in the
words of the specification: one entry per distinct date, in ascending date
order; for every date the value at its last position in the list; hence as many
entries as there are distinct dates, at most as many as dates; and the entries
go with the dates position by position exactly when the dates are strictly
ascending. -/
def StoresLastPerDate {γ : Type} (dates : List QDate) (values : List γ)
    (stored : QMap QDate γ) : Prop :=
  (QMap.keys stored).Pairwise (fun a b => a < b) ∧
    (∀ d, d ∈ QMap.keys stored ↔ d ∈ dates) ∧
    (∀ (i : Nat) (d : QDate) (v : γ), dates[i]? = some d → values[i]? = some v →
      (∀ j : Nat, i < j → dates[j]? ≠ some d) → (d, v) ∈ stored) ∧
    (QMap.values stored).length = dates.dedup.length ∧
    (QMap.values stored).length ≤ dates.length ∧
    (QMap.keys stored = dates ↔ dates.Pairwise (fun a b => a < b))

example : (((Mountain.new "Ben Nevis" 0 0 0).setDates [3, 1, 3, 2]).setDailyPrecipitation
    [10, 20, 30, 40, 50]).map Mountain.getDailyPrecipitation = some [20, 40, 30] := by decide

/-! ## Day classification: theorems -/

/-- C1: for a day index whose three stored values exist,
`anyBadConditionForecastForDay` returns, and returns true exactly when the wind
speed is at least 40, or the precipitation is at least 5, or the description is
"Thunderstorms"; each trigger alone makes the day bad. -/
theorem anyBadConditionForecastForDay_spec (mountain : Mountain) (day : Int)
    (condition : String) (windspeed precipitation : Double)
    (hc : listAt mountain.getDailyWeatherConditions day = some condition)
    (hw : listAt mountain.getDailyWindSpeed day = some windspeed)
    (hp : listAt mountain.getDailyPrecipitation day = some precipitation) :
    anyBadConditionForecastForDay mountain day =
        some (decide (windspeed ≥ 40 ∨ precipitation ≥ 5 ∨ condition = "Thunderstorms")) ∧
      (anyBadConditionForecastForDay mountain day = some true ↔
        (windspeed ≥ 40 ∨ precipitation ≥ 5 ∨ condition = "Thunderstorms")) ∧
      anyBadConditionForecastForDay (oneDayMountain "Clear" 45 0) 0 = some true ∧
      anyBadConditionForecastForDay (oneDayMountain "Clear" 0 6) 0 = some true ∧
      anyBadConditionForecastForDay (oneDayMountain "Thunderstorms" 0 0) 0 = some true := by
  have h : anyBadConditionForecastForDay mountain day =
      some (decide (windspeed ≥ 40 ∨ precipitation ≥ 5 ∨ condition = "Thunderstorms")) := by
    simp only [anyBadConditionForecastForDay, hc, hw, hp]
    split_ifs with h1 <;> simp [h1]
  refine ⟨h, ?_, by decide, by decide, by decide⟩
  rw [h]
  simp

/-- C1 at a stored day with wind 39, precipitation 4 and "Fog": not bad. -/
theorem anyBadConditionForecastForDay_spec_witness :
    anyBadConditionForecastForDay (oneDayMountain "Fog" 39 4) 0 = some false :=
  ((anyBadConditionForecastForDay_spec (oneDayMountain "Fog" 39 4) 0 "Fog" 39 4
    (by decide) (by decide) (by decide)).1).trans (by decide)

/-- C2: for a stored day that is not bad, `anyMarginalConditionForecastForDay`
returns, and returns true exactly when the wind speed is at least 20, or the
precipitation is at least 1, or the description is none of "Clear",
"Mainly Clear", "Partly cloudy", "Overcast", "Unknown"; otherwise the day is OK
(neither bad nor marginal). -/
theorem anyMarginalConditionForecastForDay_spec (mountain : Mountain) (day : Int)
    (condition : String) (windspeed precipitation : Double)
    (hc : listAt mountain.getDailyWeatherConditions day = some condition)
    (hw : listAt mountain.getDailyWindSpeed day = some windspeed)
    (hp : listAt mountain.getDailyPrecipitation day = some precipitation)
    (_hnotbad : anyBadConditionForecastForDay mountain day = some false) :
    anyMarginalConditionForecastForDay mountain day =
        some (decide (windspeed ≥ 20 ∨ precipitation ≥ 1 ∨
          ¬ (condition = "Clear" ∨ condition = "Mainly Clear" ∨ condition = "Partly cloudy" ∨
            condition = "Overcast" ∨ condition = "Unknown"))) ∧
      (anyMarginalConditionForecastForDay mountain day = some true ↔
        (windspeed ≥ 20 ∨ precipitation ≥ 1 ∨
          ¬ (condition = "Clear" ∨ condition = "Mainly Clear" ∨ condition = "Partly cloudy" ∨
            condition = "Overcast" ∨ condition = "Unknown"))) ∧
      (anyBadConditionForecastForDay (oneDayMountain "Clear" 25 0) 0 = some false ∧
        anyMarginalConditionForecastForDay (oneDayMountain "Clear" 25 0) 0 = some true) ∧
      (anyBadConditionForecastForDay (oneDayMountain "Fog" 0 0) 0 = some false ∧
        anyMarginalConditionForecastForDay (oneDayMountain "Fog" 0 0) 0 = some true) ∧
      (anyBadConditionForecastForDay (oneDayMountain "Overcast" 0 0) 0 = some false ∧
        anyMarginalConditionForecastForDay (oneDayMountain "Overcast" 0 0) 0 = some false) := by
  have h : anyMarginalConditionForecastForDay mountain day =
      some (decide (windspeed ≥ 20 ∨ precipitation ≥ 1 ∨
        ¬ (condition = "Clear" ∨ condition = "Mainly Clear" ∨ condition = "Partly cloudy" ∨
          condition = "Overcast" ∨ condition = "Unknown"))) := by
    simp only [anyMarginalConditionForecastForDay, hc, hw, hp, conditionsDescriptionIsConcerning]
    by_cases hb : condition = "Clear" ∨ condition = "Mainly Clear" ∨
        condition = "Partly cloudy" ∨ condition = "Overcast" ∨ condition = "Unknown"
    · simp only [hb, if_true, not_true_eq_false, or_false]
      split_ifs with h1 <;> simp_all
    · simp only [hb, if_false, not_false_eq_true, or_true, if_true, decide_True]
  refine ⟨h, ?_, by decide, by decide, by decide⟩
  rw [h]
  simp

/-- C2 at a stored day with wind 19, precipitation 0 and "Unknown": OK. -/
theorem anyMarginalConditionForecastForDay_spec_witness :
    anyMarginalConditionForecastForDay (oneDayMountain "Unknown" 19 0) 0 = some false :=
  ((anyMarginalConditionForecastForDay_spec (oneDayMountain "Unknown" 19 0) 0
    "Unknown" 19 0 (by decide) (by decide) (by decide) (by decide)).1).trans (by decide)

/-- The value of the conversion on each of its ranges. -/
theorem convertWindDirectionToOrientation_cases (d : Int) :
    ((338 ≤ d ∧ d ≤ 360) ∨ (0 ≤ d ∧ d ≤ 22)) ∧ convertWindDirectionToOrientation d = "N" ∨
    (23 ≤ d ∧ d ≤ 67) ∧ convertWindDirectionToOrientation d = "NE" ∨
    (68 ≤ d ∧ d ≤ 112) ∧ convertWindDirectionToOrientation d = "E" ∨
    (113 ≤ d ∧ d ≤ 157) ∧ convertWindDirectionToOrientation d = "SE" ∨
    (158 ≤ d ∧ d ≤ 202) ∧ convertWindDirectionToOrientation d = "S" ∨
    (203 ≤ d ∧ d ≤ 247) ∧ convertWindDirectionToOrientation d = "SW" ∨
    (248 ≤ d ∧ d ≤ 292) ∧ convertWindDirectionToOrientation d = "W" ∨
    (293 ≤ d ∧ d ≤ 337) ∧ convertWindDirectionToOrientation d = "NW" ∨
    (d < 0 ∨ d > 360) ∧ convertWindDirectionToOrientation d = "?" := by
  unfold convertWindDirectionToOrientation
  split_ifs with h1 h2 h3 h4 h5 h6 h7 h8 h9
  · exact Or.inl ⟨Or.inl ⟨h1.1, h1.2⟩, rfl⟩
  · exact Or.inl ⟨Or.inr ⟨h2.1, h2.2⟩, rfl⟩
  · exact Or.inr (Or.inl ⟨⟨h3.1, h3.2⟩, rfl⟩)
  · exact Or.inr (Or.inr (Or.inl ⟨⟨h4.1, h4.2⟩, rfl⟩))
  · exact Or.inr (Or.inr (Or.inr (Or.inl ⟨⟨h5.1, h5.2⟩, rfl⟩)))
  · exact Or.inr (Or.inr (Or.inr (Or.inr (Or.inl ⟨⟨h6.1, h6.2⟩, rfl⟩))))
  · exact Or.inr (Or.inr (Or.inr (Or.inr (Or.inr (Or.inl ⟨⟨h7.1, h7.2⟩, rfl⟩)))))
  · exact Or.inr (Or.inr (Or.inr (Or.inr (Or.inr (Or.inr (Or.inl ⟨⟨h8.1, h8.2⟩, rfl⟩))))))
  · exact Or.inr (Or.inr (Or.inr (Or.inr (Or.inr (Or.inr (Or.inr (Or.inl ⟨⟨h9.1, h9.2⟩, rfl⟩)))))))
  · exact Or.inr (Or.inr (Or.inr (Or.inr (Or.inr (Or.inr (Or.inr (Or.inr ⟨by omega, rfl⟩)))))))

/-- C5: the compass point of every integer wind direction. -/
theorem convertWindDirectionToOrientation_spec (d : Int) :
    (convertWindDirectionToOrientation d = "N" ↔ (338 ≤ d ∧ d ≤ 360) ∨ (0 ≤ d ∧ d ≤ 22)) ∧
      (convertWindDirectionToOrientation d = "NE" ↔ 23 ≤ d ∧ d ≤ 67) ∧
      (convertWindDirectionToOrientation d = "E" ↔ 68 ≤ d ∧ d ≤ 112) ∧
      (convertWindDirectionToOrientation d = "SE" ↔ 113 ≤ d ∧ d ≤ 157) ∧
      (convertWindDirectionToOrientation d = "S" ↔ 158 ≤ d ∧ d ≤ 202) ∧
      (convertWindDirectionToOrientation d = "SW" ↔ 203 ≤ d ∧ d ≤ 247) ∧
      (convertWindDirectionToOrientation d = "W" ↔ 248 ≤ d ∧ d ≤ 292) ∧
      (convertWindDirectionToOrientation d = "NW" ↔ 293 ≤ d ∧ d ≤ 337) ∧
      (convertWindDirectionToOrientation d = "?" ↔ d < 0 ∨ d > 360) ∧
      convertWindDirectionToOrientation 0 = "N" ∧
      convertWindDirectionToOrientation 45 = "NE" ∧
      convertWindDirectionToOrientation 90 = "E" ∧
      convertWindDirectionToOrientation 180 = "S" ∧
      convertWindDirectionToOrientation 270 = "W" ∧
      convertWindDirectionToOrientation 359 = "N" ∧
      convertWindDirectionToOrientation (-1) = "?" ∧
      convertWindDirectionToOrientation 361 = "?" := by
  have hex : convertWindDirectionToOrientation 0 = "N" ∧
      convertWindDirectionToOrientation 45 = "NE" ∧
      convertWindDirectionToOrientation 90 = "E" ∧
      convertWindDirectionToOrientation 180 = "S" ∧
      convertWindDirectionToOrientation 270 = "W" ∧
      convertWindDirectionToOrientation 359 = "N" ∧
      convertWindDirectionToOrientation (-1) = "?" ∧
      convertWindDirectionToOrientation 361 = "?" := by decide
  rcases convertWindDirectionToOrientation_cases d with
    ⟨h, hv⟩ | ⟨h, hv⟩ | ⟨h, hv⟩ | ⟨h, hv⟩ | ⟨h, hv⟩ | ⟨h, hv⟩ | ⟨h, hv⟩ | ⟨h, hv⟩ | ⟨h, hv⟩
  all_goals
    rw [hv]
    refine ⟨?_, ?_, ?_, ?_, ?_, ?_, ?_, ?_, ?_, hex⟩
    all_goals
      first
        | exact ⟨fun _ => h, fun _ => rfl⟩
        | exact ⟨fun e => absurd e (by decide), fun _ => by omega⟩

/-! ## Filter engine: theorems -/

theorem listAt_isSome {α : Type} (l : List α) (i : Int) (h0 : 0 ≤ i) (h1 : i < l.length) :
    ∃ x, listAt l i = some x := by
  have hlt : i.toNat < l.length := by omega
  refine ⟨l[i.toNat], ?_⟩
  simp [listAt, h0, h1, List.getElem?_eq_getElem hlt]

theorem anyBad_isSome (mountain : Mountain) (day : Int) (h : dayInRange mountain day) :
    ∃ b, anyBadConditionForecastForDay mountain day = some b := by
  obtain ⟨h0, hc, hw, hp⟩ := h
  obtain ⟨c, hc⟩ := listAt_isSome _ day h0 hc
  obtain ⟨w, hw⟩ := listAt_isSome _ day h0 hw
  obtain ⟨p, hp⟩ := listAt_isSome _ day h0 hp
  simp only [anyBadConditionForecastForDay, hc, hw, hp]
  split_ifs <;> simp

theorem anyMarginal_isSome (mountain : Mountain) (day : Int) (h : dayInRange mountain day) :
    ∃ b, anyMarginalConditionForecastForDay mountain day = some b := by
  obtain ⟨h0, hc, hw, hp⟩ := h
  obtain ⟨c, hc⟩ := listAt_isSome _ day h0 hc
  obtain ⟨w, hw⟩ := listAt_isSome _ day h0 hw
  obtain ⟨p, hp⟩ := listAt_isSome _ day h0 hp
  simp only [anyMarginalConditionForecastForDay, hc, hw, hp]
  split_ifs <;> simp

/-- The classifiers do not read the symbol. -/
theorem anyBad_symbol (mountain : Mountain) (c : Symbol) (day : Int) :
    anyBadConditionForecastForDay { mountain with symbol := c } day =
      anyBadConditionForecastForDay mountain day := rfl

theorem anyMarginal_symbol (mountain : Mountain) (c : Symbol) (day : Int) :
    anyMarginalConditionForecastForDay { mountain with symbol := c } day =
      anyMarginalConditionForecastForDay mountain day := rfl

/-- The first loop finds a bad day when there is one, on days that are in range. -/
theorem badLoop_spec (mountain : Mountain) (selectedDays : List Int)
    (h : ∀ day ∈ selectedDays, ∃ b, anyBadConditionForecastForDay mountain day = some b) :
    (badLoop mountain selectedDays = some true ∧
        ∃ day ∈ selectedDays, anyBadConditionForecastForDay mountain day = some true) ∨
      (badLoop mountain selectedDays = some false ∧
        ∀ day ∈ selectedDays, anyBadConditionForecastForDay mountain day = some false) := by
  induction selectedDays with
  | nil => exact Or.inr ⟨rfl, by simp⟩
  | cons day rest ih =>
    obtain ⟨b, hb⟩ := h day (List.mem_cons_self _ _)
    cases b with
    | true => exact Or.inl ⟨by simp [badLoop, hb], day, List.mem_cons_self _ _, hb⟩
    | false =>
      rcases ih (fun d hd => h d (List.mem_cons_of_mem _ hd)) with ⟨h1, d, hd, hbad⟩ | ⟨h1, hall⟩
      · exact Or.inl ⟨by simp [badLoop, hb, h1], d, List.mem_cons_of_mem _ hd, hbad⟩
      · refine Or.inr ⟨by simp [badLoop, hb, h1], ?_⟩
        intro d hd
        rcases List.mem_cons.mp hd with rfl | hd
        · exact hb
        · exact hall d hd

/-- The second loop finds a marginal day when there is one, on days that are in range. -/
theorem marginalLoop_spec (mountain : Mountain) (selectedDays : List Int)
    (h : ∀ day ∈ selectedDays, ∃ b, anyMarginalConditionForecastForDay mountain day = some b) :
    (marginalLoop mountain selectedDays = some true ∧
        ∃ day ∈ selectedDays, anyMarginalConditionForecastForDay mountain day = some true) ∨
      (marginalLoop mountain selectedDays = some false ∧
        ∀ day ∈ selectedDays, anyMarginalConditionForecastForDay mountain day = some false) := by
  induction selectedDays with
  | nil => exact Or.inr ⟨rfl, by simp⟩
  | cons day rest ih =>
    obtain ⟨b, hb⟩ := h day (List.mem_cons_self _ _)
    cases b with
    | true => exact Or.inl ⟨by simp [marginalLoop, hb], day, List.mem_cons_self _ _, hb⟩
    | false =>
      rcases ih (fun d hd => h d (List.mem_cons_of_mem _ hd)) with ⟨h1, d, hd, hbad⟩ | ⟨h1, hall⟩
      · exact Or.inl ⟨by simp [marginalLoop, hb, h1], d, List.mem_cons_of_mem _ hd, hbad⟩
      · refine Or.inr ⟨by simp [marginalLoop, hb, h1], ?_⟩
        intro d hd
        rcases List.mem_cons.mp hd with rfl | hd
        · exact hb
        · exact hall d hd

/-- One mountain: `applyFilter` returns, changes the symbol only, and the symbol
is the worst case over the selected days. -/
theorem applyFilterToMountain_spec (mountain : Mountain) (selectedDays : List Int)
    (h : ∀ day ∈ selectedDays, dayInRange mountain day) :
    ∃ c, applyFilterToMountain mountain selectedDays = some { mountain with symbol := c } ∧
      IsWorstCaseColour mountain selectedDays c := by
  have hb := badLoop_spec { mountain with symbol := Symbol.green } selectedDays
    (fun d hd => anyBad_isSome mountain d (h d hd))
  have hm := marginalLoop_spec { mountain with symbol := Symbol.green } selectedDays
    (fun d hd => anyMarginal_isSome mountain d (h d hd))
  simp only [anyBad_symbol] at hb
  simp only [anyMarginal_symbol] at hm
  rcases hb with ⟨hb1, d, hd, hbad⟩ | ⟨hb1, hnobad⟩
  · have hnot : ¬ ∀ day ∈ selectedDays,
        anyBadConditionForecastForDay mountain day = some false := by
      intro hall
      have := hall d hd
      simp [hbad] at this
    refine ⟨Symbol.red, by simp [applyFilterToMountain, hb1],
      ⟨fun _ => ⟨d, hd, hbad⟩, fun _ => rfl⟩, ⟨fun e => ?_, fun e => absurd e.1 hnot⟩,
      ⟨fun e => ?_, fun e => absurd e.1 hnot⟩⟩
    · cases e
    · cases e
  · have hnot : ¬ ∃ day ∈ selectedDays,
        anyBadConditionForecastForDay mountain day = some true := by
      rintro ⟨e, he, hbad⟩
      have := hnobad e he
      simp [hbad] at this
    rcases hm with ⟨hm1, d, hd, hmar⟩ | ⟨hm1, hnomar⟩
    · have hnot2 : ¬ ∀ day ∈ selectedDays,
          anyMarginalConditionForecastForDay mountain day = some false := by
        intro hall
        have := hall d hd
        simp [hmar] at this
      refine ⟨Symbol.orange, by simp [applyFilterToMountain, hb1, hm1],
        ⟨fun e => ?_, fun e => absurd e hnot⟩,
        ⟨fun _ => ⟨hnobad, d, hd, hmar⟩, fun _ => rfl⟩,
        ⟨fun e => ?_, fun e => absurd e.2 hnot2⟩⟩
      · cases e
      · cases e
    · have hnot2 : ¬ ∃ day ∈ selectedDays,
          anyMarginalConditionForecastForDay mountain day = some true := by
        rintro ⟨e, he, hmar⟩
        have := hnomar e he
        simp [hmar] at this
      refine ⟨Symbol.green, by simp [applyFilterToMountain, hb1, hm1],
        ⟨fun e => ?_, fun e => absurd e hnot⟩,
        ⟨fun e => ?_, fun e => absurd e.2 hnot2⟩,
        ⟨fun _ => ⟨hnobad, hnomar⟩, fun _ => rfl⟩⟩
      · cases e
      · cases e

theorem applyFilterLoop_spec (selectedDays : List Int) (mountains : List Mountain)
    (h : ∀ mountain ∈ mountains, ∀ day ∈ selectedDays, dayInRange mountain day) :
    ∃ ms, applyFilterLoop selectedDays mountains = some ms ∧
      List.Forall₂
        (fun before after => ∃ c, after = { before with symbol := c } ∧
          IsWorstCaseColour before selectedDays c)
        mountains ms := by
  induction mountains with
  | nil => exact ⟨[], rfl, List.Forall₂.nil⟩
  | cons mountain rest ih =>
    obtain ⟨c, hc, hw⟩ := applyFilterToMountain_spec mountain selectedDays
      (h mountain (List.mem_cons_self _ _))
    obtain ⟨ms, hms, hall⟩ := ih (fun m hm => h m (List.mem_cons_of_mem _ hm))
    exact ⟨_ :: ms, by simp [applyFilterLoop, hc, hms], List.Forall₂.cons ⟨c, rfl, hw⟩ hall⟩

/-- C3: for a non-empty selection whose day indices are in range for every
mountain, `applyFilter` returns, and leaves each mountain unchanged except for
its symbol, which is the worst case over the selected days: red when some
selected day is bad, otherwise orange when some selected day is marginal,
otherwise green. -/
theorem applyFilter_worst_case (s : ConditionsNavigator) (selectedDays : List Int)
    (_hne : selectedDays ≠ [])
    (hrange : ∀ mountain ∈ s.m_mountains, ∀ day ∈ selectedDays, dayInRange mountain day) :
    ∃ ms, applyFilter s selectedDays = some { s with m_mountains := ms } ∧
      List.Forall₂
        (fun before after => ∃ c, after = { before with symbol := c } ∧
          IsWorstCaseColour before selectedDays c)
        s.m_mountains ms := by
  obtain ⟨ms, hms, hall⟩ := applyFilterLoop_spec selectedDays s.m_mountains hrange
  exact ⟨ms, by simp [applyFilter, hms], hall⟩

/-- C3 on two mountains with three-day forecasts and all three days selected. -/
theorem applyFilter_worst_case_witness :
    ∃ ms, applyFilter exampleNavigator [0, 1, 2] = some { exampleNavigator with m_mountains := ms } ∧
      List.Forall₂
        (fun before after => ∃ c, after = { before with symbol := c } ∧
          IsWorstCaseColour before [0, 1, 2] c)
        exampleNavigator.m_mountains ms :=
  applyFilter_worst_case exampleNavigator [0, 1, 2] (by decide) (by decide)

/-- Past the end of the toggle list the loop of
`identifyWhichFilterOptionsAreChecked` fails. -/
theorem identifyLoop_none (toggles : List Toggle) (n : Nat) (h : toggles.length < n)
    (acc : List Int) : forCounter n (identifyStep toggles) acc = none := by
  obtain ⟨k, rfl⟩ : ∃ k, n = k + 1 := ⟨n - 1, by omega⟩
  have hk : listAt toggles (k : Int) = none := by
    have : ¬ ((k : Int) < toggles.length) := by omega
    simp [listAt, this]
  simp only [forCounter, List.range_succ, List.foldlM_append, List.foldlM_cons, List.foldlM_nil]
  cases List.foldlM (identifyStep toggles) acc (List.range k) with
  | none => rfl
  | some r => simp [identifyStep, hk]

/-- With no toggle checked the loop of `identifyWhichFilterOptionsAreChecked`
selects nothing. -/
theorem identifyLoop_unchecked (toggles : List Toggle)
    (hun : ∀ toggle ∈ toggles, toggle.checked = false) (n : Nat) (h : n ≤ toggles.length) :
    forCounter n (identifyStep toggles) [] = some [] := by
  induction n with
  | zero => rfl
  | succ k ih =>
    have hlt : k < toggles.length := by omega
    have hk : listAt toggles (k : Int) = some toggles[k] := by
      have : (k : Int) < toggles.length := by omega
      simp [listAt, this, List.getElem?_eq_getElem hlt]
    have hck : toggles[k].checked = false := hun _ (List.getElem_mem hlt)
    have ih1 := ih (by omega)
    simp only [forCounter] at ih1
    simp only [forCounter, List.range_succ, List.foldlM_append, List.foldlM_cons,
      List.foldlM_nil, ih1]
    simp [identifyStep, hk, hck]

/-- C4: when the selected-day list is empty, `filterOptionsChanged` returns the
state of `clearCurrentFilter`, in which every mountain has the base symbol
whatever symbol it had before, and a second `filterOptionsChanged` changes
nothing. -/
theorem filterOptionsChanged_reset (s : ConditionsNavigator)
    (h : identifyWhichFilterOptionsAreChecked s = some []) :
    filterOptionsChanged s = some (clearCurrentFilter s) ∧
      (clearCurrentFilter s).m_mountains =
        s.m_mountains.map (fun mountain => { mountain with symbol := Symbol.base }) ∧
      (∀ mountain ∈ (clearCurrentFilter s).m_mountains, mountain.symbol = Symbol.base) ∧
      filterOptionsChanged (clearCurrentFilter s) = some (clearCurrentFilter s) ∧
      clearCurrentFilter (clearCurrentFilter s) = clearCurrentFilter s := by
  have hlen : 7 ≤ s.m_filterToggles.length := by
    by_contra hlt
    have := identifyLoop_none s.m_filterToggles 7 (by omega) []
    simp only [identifyWhichFilterOptionsAreChecked] at h
    rw [this] at h
    simp at h
  have hclear : identifyWhichFilterOptionsAreChecked (clearCurrentFilter s) = some [] := by
    simp only [identifyWhichFilterOptionsAreChecked]
    apply identifyLoop_unchecked
    · intro toggle ht
      simp only [clearCurrentFilter, List.mem_map] at ht
      obtain ⟨t, _, rfl⟩ := ht
      rfl
    · simp [clearCurrentFilter, hlen]
  have hidem : clearCurrentFilter (clearCurrentFilter s) = clearCurrentFilter s := by
    simp only [clearCurrentFilter, List.map_map]
    rfl
  refine ⟨by simp [filterOptionsChanged, h], rfl, ?_,
    by simp [filterOptionsChanged, hclear, hidem], hidem⟩
  intro mountain hm
  simp only [clearCurrentFilter, List.mem_map] at hm
  obtain ⟨m, _, rfl⟩ := hm
  rfl

/-- C4 on a navigator with seven unchecked toggles, a red and an orange mountain. -/
theorem filterOptionsChanged_reset_witness :
    filterOptionsChanged exampleNavigator = some (clearCurrentFilter exampleNavigator) ∧
      (clearCurrentFilter exampleNavigator).m_mountains.map Mountain.symbol =
        [Symbol.base, Symbol.base] ∧
      filterOptionsChanged (clearCurrentFilter exampleNavigator) =
        some (clearCurrentFilter exampleNavigator) :=
  ⟨(filterOptionsChanged_reset exampleNavigator (by decide)).1, by decide,
    (filterOptionsChanged_reset exampleNavigator (by decide)).2.2.2.1⟩

/-! ## Ingestion: theorems -/

/-- C6: a day ingested with weather code 4, which is not in the table, with wind
speed 0 and precipitation 0: the setter succeeds and stores the empty
description, the day is not bad, but `anyMarginalConditionForecastForDay` is true
for it, whereas it is false for the description "Unknown". -/
theorem unknown_code_classifies_marginal :
    QMap.find initialiseDailyConditionsMap 4 = none ∧
      (ingestOneDay 4 0 0).map Mountain.getDailyWeatherConditions = some [""] ∧
      (ingestOneDay 4 0 0).bind (fun m => anyBadConditionForecastForDay m 0) = some false ∧
      (ingestOneDay 4 0 0).bind (fun m => anyMarginalConditionForecastForDay m 0) = some true ∧
      anyMarginalConditionForecastForDay (oneDayMountain "Unknown" 0 0) 0 = some false := by
  decide

/-- Assigning under a key above every stored key appends the entry. -/
theorem QMap.assign_append {κ ν : Type} [LinearOrder κ] (k : κ) (v : ν) (l : QMap κ ν)
    (h : ∀ e ∈ l, e.1 < k) : QMap.assign k v l = l ++ [(k, v)] := by
  induction l with
  | nil => rfl
  | cons e rest ih =>
    obtain ⟨k1, v1⟩ := e
    have h1 : k1 < k := h (k1, v1) (List.mem_cons_self _ _)
    have h2 : ¬ k < k1 := not_lt.mpr (le_of_lt h1)
    have h3 : ¬ k = k1 := fun e => (lt_irrefl _ (e ▸ h1))
    simp only [QMap.assign, h2, h3, if_false, List.cons_append]
    rw [ih (fun e he => h e (List.mem_cons_of_mem _ he))]

/-- On strictly ascending dates the loop of a daily setter stores the entries in
the order they were given. -/
theorem dailyLoop_ascending {β γ : Type} (convert : β → γ) (dates : List QDate)
    (newData : List β) (hasc : dates.Pairwise (fun a b => a < b)) (n : Nat)
    (hn : n ≤ dates.length) (hd : n ≤ newData.length) :
    forCounter n (dailyStep convert dates newData) [] =
      some ((dates.take n).zip ((newData.take n).map convert)) := by
  induction n with
  | zero => rfl
  | succ k ih =>
    have hk1 : k < dates.length := by omega
    have hk2 : k < newData.length := by omega
    have ih1 := ih (by omega) (by omega)
    simp only [forCounter] at ih1
    simp only [forCounter, List.range_succ, List.foldlM_append, List.foldlM_cons,
      List.foldlM_nil, ih1]
    have hstep : dailyStep convert dates newData
        ((dates.take k).zip ((newData.take k).map convert)) k =
        some (QMap.assign dates[k] (convert newData[k])
          ((dates.take k).zip ((newData.take k).map convert))) := by
      simp [dailyStep, List.getElem?_eq_getElem hk1, List.getElem?_eq_getElem hk2]
    have hbelow : ∀ e ∈ (dates.take k).zip ((newData.take k).map convert), e.1 < dates[k] := by
      rintro ⟨a, b⟩ he
      have ha := (List.of_mem_zip he).1
      obtain ⟨i, hi, rfl⟩ := List.mem_take_iff_getElem.mp ha
      exact List.pairwise_iff_getElem.mp hasc i k (by omega) hk1 (by omega)
    have hlen : (dates.take k).length = ((newData.take k).map convert).length := by
      simp [List.length_take]
      omega
    simp only [Option.some_bind, Option.bind_eq_bind, hstep, Option.some.injEq, pure]
    rw [QMap.assign_append _ _ _ hbelow, List.take_succ, List.take_succ,
      List.getElem?_eq_getElem hk1, List.getElem?_eq_getElem hk2]
    simp only [Option.toList, List.map_append, List.map_cons, List.map_nil]
    rw [List.zip_append hlen]
    rfl

/-- C7: on strictly ascending dates and a data list of the same length,
`setDates` followed by `setDailyPrecipitation`, `setDailyWindSpeed` or
`setDailyWindGusts` succeeds, the stored map pairs entry `i` of the dates with
entry `i` of the data, and the matching getter returns exactly the data while
`getDates` returns the dates. -/
theorem daily_round_trip (m : Mountain) (dates : List QDate) (data : List Double)
    (hasc : dates.Pairwise (fun a b => a < b)) (hlen : data.length = dates.length) :
    (∃ m1, (m.setDates dates).setDailyPrecipitation data = some m1 ∧
        m1.m_precipitation_daily = dates.zip data ∧
        m1.getDailyPrecipitation = data ∧ m1.getDates = dates) ∧
      (∃ m1, (m.setDates dates).setDailyWindSpeed data = some m1 ∧
        m1.m_windspeed_daily = dates.zip data ∧
        m1.getDailyWindSpeed = data ∧ m1.getDates = dates) ∧
      (∃ m1, (m.setDates dates).setDailyWindGusts data = some m1 ∧
        m1.m_windgusts_daily = dates.zip data ∧
        m1.getDailyWindGusts = data ∧ m1.getDates = dates) := by
  have hloop := dailyLoop_ascending (id : Double → Double) dates data hasc dates.length
    (le_refl _) (by omega)
  rw [List.take_length, ← hlen, List.take_length, List.map_id] at hloop
  have hvals : List.map Prod.snd (dates.zip data) = data :=
    List.map_snd_zip _ _ (by omega)
  refine ⟨⟨{ m.setDates dates with m_precipitation_daily := dates.zip data }, ?_, rfl, hvals, rfl⟩,
    ⟨{ m.setDates dates with m_windspeed_daily := dates.zip data }, ?_, rfl, hvals, rfl⟩,
    ⟨{ m.setDates dates with m_windgusts_daily := dates.zip data }, ?_, rfl, hvals, rfl⟩⟩
  · simp only [Mountain.setDailyPrecipitation, Mountain.setDates]
    rw [← hlen, hloop]
    rfl
  · simp only [Mountain.setDailyWindSpeed, Mountain.setDates]
    rw [← hlen, hloop]
    rfl
  · simp only [Mountain.setDailyWindGusts, Mountain.setDates]
    rw [← hlen, hloop]
    rfl

/-- C7 on a three-day forecast. -/
theorem daily_round_trip_witness :
    ∃ m1, ((Mountain.new "Ben Nevis" 0 0 0).setDates [10, 11, 12]).setDailyPrecipitation
        [3, 0, 7] = some m1 ∧
      m1.m_precipitation_daily = [(10, 3), (11, 0), (12, 7)] ∧
      m1.getDailyPrecipitation = [3, 0, 7] ∧ m1.getDates = [10, 11, 12] :=
  (daily_round_trip (Mountain.new "Ben Nevis" 0 0 0) [10, 11, 12] [3, 0, 7]
    (by decide) (by decide)).1

/-- The typed list has one converted entry per entry of the variant list. -/
theorem convertQVariantListToTypedList_eq_map {τ : Type} (value : QVariant → τ)
    (qVariantList : List QVariant) :
    convertQVariantListToTypedList value qVariantList = qVariantList.map value := by
  have h : ∀ (l : List QVariant) (acc : List τ),
      l.foldl (fun convertedList element => convertedList ++ [value element]) acc =
        acc ++ l.map value := by
    intro l
    induction l with
    | nil => intro acc; simp
    | cons x xs ih => intro acc; simp [List.foldl_cons, ih]
  simpa [convertQVariantListToTypedList] using h qVariantList []

/-- `setHourlyDateTime` on a non-empty list appends the last entry plus an hour. -/
theorem setHourlyDateTime_eq (m : Mountain) (ts : List QDateTime) (hne : ts ≠ []) :
    m.setHourlyDateTime ts =
      some { m with m_dateTime_hourly := ts ++ [(ts.getLast hne).addSecs 3600] } := by
  simp [Mountain.setHourlyDateTime, listLast, List.getLast?_eq_getLast _ hne]

/-- C8 as stated fails: after ingesting an hourly payload whose five arrays have
one entry each, the timestamp sequence has two entries and the four value
sequences one, so the five lengths are not all equal. -/
theorem hourly_lengths_not_all_equal :
    (assignHourlyDataToMountain exampleConversions oneHourPayload
        (Mountain.new "Ben Nevis" 0 0 0)).map
      (fun m => (m.getHourlyDateTime.length, m.getHourlyApparentTemperature.length,
        m.getHourlyPrecipitation.length, m.getHourlyTemperature.length,
        m.getHourlyVisibility.length)) = some (2, 1, 1, 1, 1) ∧
    ¬ ∃ m, assignHourlyDataToMountain exampleConversions oneHourPayload
        (Mountain.new "Ben Nevis" 0 0 0) = some m ∧
      m.getHourlyDateTime.length = m.getHourlyApparentTemperature.length ∧
      m.getHourlyApparentTemperature.length = m.getHourlyPrecipitation.length ∧
      m.getHourlyPrecipitation.length = m.getHourlyTemperature.length ∧
      m.getHourlyTemperature.length = m.getHourlyVisibility.length := by
  have h : (assignHourlyDataToMountain exampleConversions oneHourPayload
      (Mountain.new "Ben Nevis" 0 0 0)).map
      (fun m => (m.getHourlyDateTime.length, m.getHourlyApparentTemperature.length)) =
      some (2, 1) := by decide
  refine ⟨by decide, ?_⟩
  rintro ⟨m, hm, h1, -⟩
  rw [hm] at h
  simp only [Option.map_some', Option.some.injEq, Prod.mk.injEq] at h
  omega

/-- C8, amended: after `assignHourlyDataToMountain` ingests an hourly payload
whose five arrays all have length `N >= 1`, the four value sequences of the
mountain have length `N` and the timestamp sequence has length `N + 1`. -/
theorem assignHourlyDataToMountain_lengths (cv : VariantConversions) (hourlyData : QVariantMap)
    (mountain : Mountain) (N : Nat) (hN : 1 ≤ N)
    (htime : (hourlyData.value "time").toList.length = N)
    (happarent : (hourlyData.value "apparent_temperature").toList.length = N)
    (hprecipitation : (hourlyData.value "precipitation").toList.length = N)
    (htemperature : (hourlyData.value "temperature_2m").toList.length = N)
    (hvisibility : (hourlyData.value "visibility").toList.length = N) :
    ∃ m, assignHourlyDataToMountain cv hourlyData mountain = some m ∧
      m.getHourlyApparentTemperature.length = N ∧
      m.getHourlyPrecipitation.length = N ∧
      m.getHourlyTemperature.length = N ∧
      m.getHourlyVisibility.length = N ∧
      m.getHourlyDateTime.length = N + 1 := by
  have hne : convertQVariantListToTypedList cv.toDateTime (hourlyData.value "time").toList ≠
      [] := by
    intro h
    have := congrArg List.length h
    rw [convertQVariantListToTypedList_eq_map, List.length_map, htime] at this
    simp at this
    omega
  simp only [assignHourlyDataToMountain, setHourlyDateTime_eq _ _ hne]
  refine ⟨_, rfl, ?_, ?_, ?_, ?_, ?_⟩
  · simp [Mountain.getHourlyApparentTemperature, Mountain.setHourlyVisibility,
      Mountain.setHourlyTemperature, Mountain.setHourlyPrecipitation,
      Mountain.setHourlyApparentTemperature, convertQVariantListToTypedList_eq_map, happarent]
  · simp [Mountain.getHourlyPrecipitation, Mountain.setHourlyVisibility,
      Mountain.setHourlyTemperature, Mountain.setHourlyPrecipitation,
      convertQVariantListToTypedList_eq_map, hprecipitation]
  · simp [Mountain.getHourlyTemperature, Mountain.setHourlyVisibility,
      Mountain.setHourlyTemperature, convertQVariantListToTypedList_eq_map, htemperature]
  · simp [Mountain.getHourlyVisibility, Mountain.setHourlyVisibility,
      convertQVariantListToTypedList_eq_map, hvisibility]
  · simp [Mountain.getHourlyDateTime, Mountain.setHourlyVisibility,
      Mountain.setHourlyTemperature, Mountain.setHourlyPrecipitation,
      Mountain.setHourlyApparentTemperature, convertQVariantListToTypedList_eq_map, htime]

/-- C8, amended, on a payload whose five arrays have one entry each. -/
theorem assignHourlyDataToMountain_lengths_witness :
    ∃ m, assignHourlyDataToMountain exampleConversions oneHourPayload
        (Mountain.new "Ben Nevis" 0 0 0) = some m ∧
      m.getHourlyApparentTemperature.length = 1 ∧
      m.getHourlyPrecipitation.length = 1 ∧
      m.getHourlyTemperature.length = 1 ∧
      m.getHourlyVisibility.length = 1 ∧
      m.getHourlyDateTime.length = 1 + 1 :=
  assignHourlyDataToMountain_lengths exampleConversions oneHourPayload
    (Mountain.new "Ben Nevis" 0 0 0) 1 (by decide) (by decide) (by decide) (by decide)
    (by decide) (by decide)

/-- C9: for a non-empty timestamp list `ts` of length `N`, `setHourlyDateTime`
succeeds; afterwards `getHourlyDateTime` has length `N + 1`, its first `N`
entries are `ts`, and its last entry is the last entry of `ts` moved by
`addSecs(3600)`, that is by 3600000 milliseconds. -/
theorem setHourlyDateTime_spec (m : Mountain) (ts : List QDateTime) (hne : ts ≠ []) :
    ∃ m1, m.setHourlyDateTime ts = some m1 ∧
      m1.getHourlyDateTime.length = ts.length + 1 ∧
      m1.getHourlyDateTime.take ts.length = ts ∧
      m1.getHourlyDateTime.getLast? = some ((ts.getLast hne).addSecs 3600) ∧
      ((ts.getLast hne).addSecs 3600).msecs = (ts.getLast hne).msecs + 3600 * 1000 := by
  refine ⟨_, setHourlyDateTime_eq m ts hne, ?_, ?_, ?_, rfl⟩
  · simp [Mountain.getHourlyDateTime]
  · simp [Mountain.getHourlyDateTime]
  · simp [Mountain.getHourlyDateTime]

/-- C9 on two timestamps an hour apart. -/
theorem setHourlyDateTime_spec_witness :
    ∃ m1, (Mountain.new "Ben Nevis" 0 0 0).setHourlyDateTime [⟨0⟩, ⟨3600000⟩] = some m1 ∧
      m1.getHourlyDateTime.length = 2 + 1 ∧
      m1.getHourlyDateTime.take 2 = [⟨0⟩, ⟨3600000⟩] ∧
      m1.getHourlyDateTime.getLast? = some ((⟨3600000⟩ : QDateTime).addSecs 3600) ∧
      ((⟨3600000⟩ : QDateTime).addSecs 3600).msecs = 3600000 + 3600 * 1000 :=
  setHourlyDateTime_spec (Mountain.new "Ben Nevis" 0 0 0) [⟨0⟩, ⟨3600000⟩] (by decide)

/-! ## Extrema: theorems -/

/-- The fold of `std::max_element` returns an element that bounds all others. -/
theorem foldl_max_spec (xs : List Double) (x : Double) :
    xs.foldl (fun largest y => if largest < y then y else largest) x ∈ x :: xs ∧
      ∀ y ∈ x :: xs, y ≤ xs.foldl (fun largest y => if largest < y then y else largest) x := by
  induction xs generalizing x with
  | nil => simp
  | cons z zs ih =>
    simp only [List.foldl_cons]
    by_cases hlt : x < z
    · simp only [hlt, if_true]
      obtain ⟨hmem, hle⟩ := ih z
      refine ⟨List.mem_cons_of_mem _ hmem, ?_⟩
      intro y hy
      rcases List.mem_cons.mp hy with rfl | hy
      · exact le_trans (le_of_lt hlt) (hle z (List.mem_cons_self _ _))
      · exact hle y hy
    · simp only [hlt, if_false]
      obtain ⟨hmem, hle⟩ := ih x
      refine ⟨?_, ?_⟩
      · rcases List.mem_cons.mp hmem with h | h
        · rw [h]
          exact List.mem_cons_self _ _
        · exact List.mem_cons_of_mem _ (List.mem_cons_of_mem _ h)
      · intro y hy
        rcases List.mem_cons.mp hy with rfl | hy
        · exact hle y (List.mem_cons_self _ _)
        · rcases List.mem_cons.mp hy with rfl | hy
          · exact le_trans (not_lt.mp hlt) (hle x (List.mem_cons_self _ _))
          · exact hle y (List.mem_cons_of_mem _ hy)

/-- `std::max_element` finds the maximum of a list that has one. -/
theorem maxElement_eq (l : List Double) (v : Double) (hmem : v ∈ l) (hmax : ∀ y ∈ l, y ≤ v) :
    maxElement l = some v := by
  cases l with
  | nil => simp at hmem
  | cons x xs =>
    obtain ⟨h1, h2⟩ := foldl_max_spec xs x
    simp only [maxElement, Option.some.injEq]
    exact le_antisymm (hmax _ h1) (h2 v hmem)

/-- C11: `identifyMaxAndMinValues` never decreases the running maximum
precipitation or temperature and never increases the running minimum
temperature; and from the initial state, after it ran on a mountain whose
largest hourly precipitation is 10 and then on one whose largest is 20, the
running maximum precipitation is 20. -/
theorem identifyMaxAndMinValues_monotone (m : Mountain) (g : Extrema) (m1 m2 : Mountain)
    (h10 : (10 : Double) ∈ m1.m_precipitation_hourly)
    (hle10 : ∀ y ∈ m1.m_precipitation_hourly, y ≤ 10)
    (h20 : (20 : Double) ∈ m2.m_precipitation_hourly)
    (hle20 : ∀ y ∈ m2.m_precipitation_hourly, y ≤ 20) :
    getMaxPrecipitationMeasurement g ≤
        getMaxPrecipitationMeasurement (m.identifyMaxAndMinValues g) ∧
      getMaxTemperatureMeasurement g ≤
        getMaxTemperatureMeasurement (m.identifyMaxAndMinValues g) ∧
      getMinTemperatureMeasurement (m.identifyMaxAndMinValues g) ≤
        getMinTemperatureMeasurement g ∧
      getMaxPrecipitationMeasurement
        (m2.identifyMaxAndMinValues (m1.identifyMaxAndMinValues Extrema.initial)) = 20 := by
  refine ⟨?_, ?_, ?_, ?_⟩
  · simp only [getMaxPrecipitationMeasurement, Mountain.identifyMaxAndMinValues]
    split_ifs with h
    · exact le_of_lt h
    · exact le_refl _
  · simp only [getMaxTemperatureMeasurement, Mountain.identifyMaxAndMinValues]
    split_ifs with h
    · exact le_of_lt h
    · exact le_refl _
  · simp only [getMinTemperatureMeasurement, Mountain.identifyMaxAndMinValues]
    split_ifs with h
    · exact le_of_lt h
    · exact le_refl _
  · simp only [getMaxPrecipitationMeasurement, Mountain.identifyMaxAndMinValues,
      maxElement_eq _ _ h10 hle10, maxElement_eq _ _ h20 hle20, Option.getD_some,
      Extrema.initial]
    norm_num

/-- C11 on two mountains with the hourly precipitation 2, 10, 7 and 20, 1. -/
theorem identifyMaxAndMinValues_monotone_witness :
    getMaxPrecipitationMeasurement Extrema.initial ≤
        getMaxPrecipitationMeasurement (mountainWithMax10.identifyMaxAndMinValues
          Extrema.initial) ∧
      getMaxPrecipitationMeasurement
        (mountainWithMax20.identifyMaxAndMinValues
          (mountainWithMax10.identifyMaxAndMinValues Extrema.initial)) = 20 :=
  ⟨(identifyMaxAndMinValues_monotone mountainWithMax10 Extrema.initial mountainWithMax10
      mountainWithMax20 (by decide) (by decide) (by decide) (by decide)).1,
    (identifyMaxAndMinValues_monotone mountainWithMax10 Extrema.initial mountainWithMax10
      mountainWithMax20 (by decide) (by decide) (by decide) (by decide)).2.2.2⟩

/-- C13: for a response that is not a JSON object, or is the empty JSON object,
`processResponse` returns with the mountain (hourly series, daily series, dates)
and the extrema unchanged. -/
theorem processResponse_dropped (cv : VariantConversions) (response : QJsonDocument)
    (mountain : Mountain) (g : Extrema)
    (h : response.isObject = false ∨ response = QJsonDocument.object []) :
    processResponse cv response mountain g = some (mountain, g) := by
  rcases h with h | h
  · cases response with
    | null => rfl
    | array items => rfl
    | object members => simp [QJsonDocument.isObject] at h
  · subst h
    rfl

/-- C13 on the null document and on the empty object. -/
theorem processResponse_dropped_witness :
    processResponse exampleConversions QJsonDocument.null threeDayMountain Extrema.initial =
        some (threeDayMountain, Extrema.initial) ∧
      processResponse exampleConversions (QJsonDocument.object []) threeDayMountain
        Extrema.initial = some (threeDayMountain, Extrema.initial) :=
  ⟨processResponse_dropped exampleConversions QJsonDocument.null threeDayMountain
      Extrema.initial (Or.inl rfl),
    processResponse_dropped exampleConversions (QJsonDocument.object []) threeDayMountain
      Extrema.initial (Or.inr rfl)⟩

/-! ## Bounds of the reads: theorems -/

theorem listAt_eq_none_iff {α : Type} (l : List α) (i : Int) :
    listAt l i = none ↔ ¬ (0 ≤ i ∧ i < l.length) := by
  constructor
  · rintro h ⟨h0, h1⟩
    obtain ⟨x, hx⟩ := listAt_isSome l i h0 h1
    rw [hx] at h
    cases h
  · intro h
    simp [listAt, h]

/-- The reads of `anyBadConditionForecastForDay` succeed exactly in range. -/
theorem anyBad_ne_none_iff (mountain : Mountain) (day : Int) :
    anyBadConditionForecastForDay mountain day ≠ none ↔ dayInRange mountain day := by
  constructor
  · intro h
    by_contra hr
    apply h
    simp only [dayInRange] at hr
    unfold anyBadConditionForecastForDay
    cases hc : listAt mountain.getDailyWeatherConditions day with
    | none => rfl
    | some c =>
      cases hw : listAt mountain.getDailyWindSpeed day with
      | none => rfl
      | some w =>
        cases hp : listAt mountain.getDailyPrecipitation day with
        | none => rfl
        | some p =>
          exfalso
          have h1 : ¬ listAt mountain.getDailyWeatherConditions day = none := by simp [hc]
          have h2 : ¬ listAt mountain.getDailyWindSpeed day = none := by simp [hw]
          have h3 : ¬ listAt mountain.getDailyPrecipitation day = none := by simp [hp]
          rw [listAt_eq_none_iff] at h1 h2 h3
          exact hr ⟨(not_not.mp h1).1, (not_not.mp h1).2, (not_not.mp h2).2, (not_not.mp h3).2⟩
  · intro h
    obtain ⟨b, hb⟩ := anyBad_isSome mountain day h
    simp [hb]

/-- The reads of `anyMarginalConditionForecastForDay` succeed exactly in range. -/
theorem anyMarginal_ne_none_iff (mountain : Mountain) (day : Int) :
    anyMarginalConditionForecastForDay mountain day ≠ none ↔ dayInRange mountain day := by
  constructor
  · intro h
    by_contra hr
    apply h
    simp only [dayInRange] at hr
    unfold anyMarginalConditionForecastForDay
    cases hc : listAt mountain.getDailyWeatherConditions day with
    | none => rfl
    | some c =>
      cases hw : listAt mountain.getDailyWindSpeed day with
      | none => rfl
      | some w =>
        cases hp : listAt mountain.getDailyPrecipitation day with
        | none => rfl
        | some p =>
          exfalso
          have h1 : ¬ listAt mountain.getDailyWeatherConditions day = none := by simp [hc]
          have h2 : ¬ listAt mountain.getDailyWindSpeed day = none := by simp [hw]
          have h3 : ¬ listAt mountain.getDailyPrecipitation day = none := by simp [hp]
          rw [listAt_eq_none_iff] at h1 h2 h3
          exact hr ⟨(not_not.mp h1).1, (not_not.mp h1).2, (not_not.mp h2).2, (not_not.mp h3).2⟩
  · intro h
    obtain ⟨b, hb⟩ := anyMarginal_isSome mountain day h
    simp [hb]

/-- C14: for a mountain whose daily condition, wind-speed and precipitation
series all have length `L`, the reads of both classifiers are in bounds exactly
for `0 <= day < L`; with `L = 7` and every selected index in 0..6 `applyFilter`
returns for that mountain, and with `L = 0` both classifiers fail on every day
and `applyFilter` fails on every non-empty selection. -/
theorem classifier_reads_in_bounds_iff (mountain : Mountain) (L : Nat)
    (hc : mountain.getDailyWeatherConditions.length = L)
    (hw : mountain.getDailyWindSpeed.length = L)
    (hp : mountain.getDailyPrecipitation.length = L) :
    (∀ day : Int, anyBadConditionForecastForDay mountain day ≠ none ↔ 0 ≤ day ∧ day < L) ∧
      (∀ day : Int,
        anyMarginalConditionForecastForDay mountain day ≠ none ↔ 0 ≤ day ∧ day < L) ∧
      (L = 7 → ∀ selectedDays : List Int, (∀ day ∈ selectedDays, 0 ≤ day ∧ day ≤ 6) →
        applyFilterToMountain mountain selectedDays ≠ none) ∧
      (L = 0 → ∀ day : Int, anyBadConditionForecastForDay mountain day = none ∧
        anyMarginalConditionForecastForDay mountain day = none) ∧
      (L = 0 → ∀ selectedDays : List Int, selectedDays ≠ [] →
        applyFilterToMountain mountain selectedDays = none) := by
  have hrange : ∀ day : Int, dayInRange mountain day ↔ 0 ≤ day ∧ day < L := by
    intro day
    simp only [dayInRange, hc, hw, hp]
    constructor
    · rintro ⟨h0, h1, -, -⟩
      exact ⟨h0, h1⟩
    · rintro ⟨h0, h1⟩
      exact ⟨h0, h1, h1, h1⟩
  have hbad : ∀ day : Int,
      anyBadConditionForecastForDay mountain day ≠ none ↔ 0 ≤ day ∧ day < L :=
    fun day => (anyBad_ne_none_iff mountain day).trans (hrange day)
  have hmar : ∀ day : Int,
      anyMarginalConditionForecastForDay mountain day ≠ none ↔ 0 ≤ day ∧ day < L :=
    fun day => (anyMarginal_ne_none_iff mountain day).trans (hrange day)
  have hnone : L = 0 → ∀ day : Int, anyBadConditionForecastForDay mountain day = none ∧
      anyMarginalConditionForecastForDay mountain day = none := by
    intro hL day
    have h1 := (hbad day).not
    have h2 := (hmar day).not
    simp only [not_not] at h1 h2
    exact ⟨h1.mpr (by omega), h2.mpr (by omega)⟩
  refine ⟨hbad, hmar, ?_, hnone, ?_⟩
  · intro hL selectedDays hsel
    obtain ⟨c, hcol, -⟩ := applyFilterToMountain_spec mountain selectedDays
      (fun day hday => (hrange day).mpr ⟨(hsel day hday).1, by have := (hsel day hday).2; omega⟩)
    simp [hcol]
  · intro hL selectedDays hne
    cases selectedDays with
    | nil => exact absurd rfl hne
    | cons day rest =>
      have h := (hnone hL day).1
      rw [← anyBad_symbol mountain Symbol.green day] at h
      simp [applyFilterToMountain, badLoop, h]

/-- C14 on a mountain with a three-day forecast. -/
theorem classifier_reads_in_bounds_iff_witness :
    (anyBadConditionForecastForDay threeDayMountain 2 ≠ none ↔ (0 : Int) ≤ 2 ∧ (2 : Int) < 3) ∧
      (anyBadConditionForecastForDay threeDayMountain 3 ≠ none ↔
        (0 : Int) ≤ 3 ∧ (3 : Int) < 3) :=
  ⟨(classifier_reads_in_bounds_iff threeDayMountain 3 (by decide) (by decide)
      (by decide)).1 2,
    (classifier_reads_in_bounds_iff threeDayMountain 3 (by decide) (by decide)
      (by decide)).1 3⟩

/-- A counter loop whose body succeeds at every index succeeds. -/
theorem forCounter_ne_none {σ : Type} (n : Nat) (body : σ → Nat → Option σ) (init : σ)
    (h : ∀ acc k, k < n → body acc k ≠ none) : forCounter n body init ≠ none := by
  induction n with
  | zero => simp [forCounter]
  | succ k ih =>
    have ih1 := ih (fun acc j hj => h acc j (by omega))
    simp only [forCounter] at ih1
    simp only [forCounter, List.range_succ, List.foldlM_append, List.foldlM_cons,
      List.foldlM_nil]
    cases hr : List.foldlM body init (List.range k) with
    | none => exact absurd hr ih1
    | some r =>
      have := h r k (by omega)
      simpa using this

/-- A counter loop whose body fails at some index fails. -/
theorem forCounter_eq_none {σ : Type} (n : Nat) (body : σ → Nat → Option σ) (init : σ)
    (k : Nat) (hk : k < n) (h : ∀ acc, body acc k = none) : forCounter n body init = none := by
  induction n with
  | zero => omega
  | succ j ih =>
    simp only [forCounter, List.range_succ, List.foldlM_append, List.foldlM_cons,
      List.foldlM_nil]
    cases hr : List.foldlM body init (List.range j) with
    | none => rfl
    | some r =>
      by_cases hkj : k < j
      · have := ih hkj
        simp only [forCounter] at this
        rw [this] at hr
        cases hr
      · have hkj1 : k = j := by omega
        subst hkj1
        simp [h r]

/-- The loop of a daily setter returns exactly when `newData` is as long as the dates. -/
theorem dailyLoop_ne_none_iff {β γ : Type} (convert : β → γ) (dates : List QDate)
    (newData : List β) :
    forCounter dates.length (dailyStep convert dates newData) [] ≠ none ↔
      dates.length ≤ newData.length := by
  constructor
  · intro h
    by_contra hlt
    apply h
    apply forCounter_eq_none _ _ _ newData.length (by omega)
    intro acc
    have : newData[newData.length]? = none := List.getElem?_eq_none (le_refl _)
    simp only [dailyStep, this]
    cases dates[newData.length]? <;> rfl
  · intro hle
    apply forCounter_ne_none
    intro acc k hk
    have hk2 : k < newData.length := by omega
    simp [dailyStep, List.getElem?_eq_getElem hk, List.getElem?_eq_getElem hk2]

/-- The loop of `setDailyWeatherConditions` returns exactly when `newData` is as
long as the dates. -/
theorem weatherLoop_ne_none_iff (dates : List QDate) (newData : List Int)
    (table : QMap Int String) :
    forCounter dates.length (weatherStep dates newData) (table, []) ≠ none ↔
      dates.length ≤ newData.length := by
  constructor
  · intro h
    by_contra hlt
    apply h
    apply forCounter_eq_none _ _ _ newData.length (by omega)
    intro acc
    have : newData[newData.length]? = none := List.getElem?_eq_none (le_refl _)
    simp only [weatherStep, this]
    cases dates[newData.length]? <;> rfl
  · intro hle
    apply forCounter_ne_none
    intro acc k hk
    have hk2 : k < newData.length := by omega
    simp [weatherStep, List.getElem?_eq_getElem hk, List.getElem?_eq_getElem hk2]

/-- C15: after `setDates(dates)` each of the five daily setters returns, that is
every read `newData[counter]` is in bounds, exactly when the data list is at
least as long as the dates; in particular when the two lengths are equal. -/
theorem daily_setters_in_bounds_iff (m : Mountain) (dates : List QDate)
    (dataD : List Double) (dataI : List Int) :
    ((m.setDates dates).setDailyPrecipitation dataD ≠ none ↔ dates.length ≤ dataD.length) ∧
      ((m.setDates dates).setDailyWeatherConditions dataI ≠ none ↔
        dates.length ≤ dataI.length) ∧
      ((m.setDates dates).setDailyWindDirection dataI ≠ none ↔
        dates.length ≤ dataI.length) ∧
      ((m.setDates dates).setDailyWindGusts dataD ≠ none ↔ dates.length ≤ dataD.length) ∧
      ((m.setDates dates).setDailyWindSpeed dataD ≠ none ↔ dates.length ≤ dataD.length) := by
  refine ⟨?_, ?_, ?_, ?_, ?_⟩
  · rw [← dailyLoop_ne_none_iff id dates dataD]
    simp [Mountain.setDailyPrecipitation, Mountain.setDates]
  · rw [← weatherLoop_ne_none_iff dates dataI m.m_dailyConditionsMap]
    simp [Mountain.setDailyWeatherConditions, Mountain.setDates]
  · rw [← dailyLoop_ne_none_iff convertWindDirectionToOrientation dates dataI]
    simp [Mountain.setDailyWindDirection, Mountain.setDates]
  · rw [← dailyLoop_ne_none_iff id dates dataD]
    simp [Mountain.setDailyWindGusts, Mountain.setDates]
  · rw [← dailyLoop_ne_none_iff id dates dataD]
    simp [Mountain.setDailyWindSpeed, Mountain.setDates]

/-! ## Recomputation and independence: theorems -/

/-- The body of `applyFilter` does not read the symbol the mountain had. -/
theorem applyFilterToMountain_symbol (mountain : Mountain) (c : Symbol)
    (selectedDays : List Int) :
    applyFilterToMountain { mountain with symbol := c } selectedDays =
      applyFilterToMountain mountain selectedDays := rfl

/-- The body of `applyFilter` changes the symbol only. -/
theorem applyFilterToMountain_some (mountain after : Mountain) (selectedDays : List Int)
    (h : applyFilterToMountain mountain selectedDays = some after) :
    ∃ c, after = { mountain with symbol := c } := by
  unfold applyFilterToMountain at h
  simp only at h
  split at h
  · cases h
  · exact ⟨Symbol.red, by cases h; rfl⟩
  · split at h
    · cases h
    · exact ⟨Symbol.orange, by cases h; rfl⟩
    · exact ⟨Symbol.green, by cases h; rfl⟩

theorem applyFilterLoop_congr (selectedDays : List Int) (ms1 ms2 : List Mountain)
    (h : List.Forall₂ (fun a b => ∃ c, b = { a with symbol := c }) ms1 ms2) :
    applyFilterLoop selectedDays ms1 = applyFilterLoop selectedDays ms2 := by
  induction h with
  | nil => rfl
  | cons hab _ ih =>
    obtain ⟨c, rfl⟩ := hab
    simp only [applyFilterLoop, applyFilterToMountain_symbol, ih]

theorem applyFilterLoop_idempotent (selectedDays : List Int) (ms after : List Mountain)
    (h : applyFilterLoop selectedDays ms = some after) :
    applyFilterLoop selectedDays after = some after := by
  induction ms generalizing after with
  | nil =>
    simp only [applyFilterLoop, Option.some.injEq] at h
    subst h
    rfl
  | cons mountain rest ih =>
    simp only [applyFilterLoop] at h
    cases h1 : applyFilterToMountain mountain selectedDays with
    | none => simp [h1] at h
    | some recoloured =>
      cases h2 : applyFilterLoop selectedDays rest with
      | none => simp [h1, h2] at h
      | some others =>
        simp only [h1, h2, Option.some.injEq] at h
        subst h
        obtain ⟨c, hc⟩ := applyFilterToMountain_some mountain recoloured selectedDays h1
        have h3 : applyFilterToMountain recoloured selectedDays = some recoloured := by
          rw [hc, applyFilterToMountain_symbol, h1, hc]
        simp only [applyFilterLoop, h3, ih others h2]

/-- C16: `applyFilter` is a recomputation. Two states that differ only in the
symbols of their mountains give the same result for every selection, and
applying the selection to the result again changes nothing. -/
theorem applyFilter_recomputes (s1 s2 : ConditionsNavigator) (selectedDays : List Int)
    (htoggles : s1.m_filterToggles = s2.m_filterToggles)
    (hmountains : List.Forall₂ (fun a b => ∃ c, b = { a with symbol := c })
      s1.m_mountains s2.m_mountains) :
    applyFilter s1 selectedDays = applyFilter s2 selectedDays ∧
      ∀ after, applyFilter s1 selectedDays = some after →
        applyFilter after selectedDays = some after := by
  constructor
  · simp only [applyFilter, applyFilterLoop_congr selectedDays _ _ hmountains]
    cases applyFilterLoop selectedDays s2.m_mountains with
    | none => rfl
    | some ms =>
      simp only [Option.map_some', Option.some.injEq]
      cases s1
      cases s2
      simp only at htoggles
      simp [htoggles]
  · intro after h
    simp only [applyFilter] at h
    cases h1 : applyFilterLoop selectedDays s1.m_mountains with
    | none => simp [h1] at h
    | some ms =>
      simp only [h1, Option.map_some', Option.some.injEq] at h
      subst h
      simp [applyFilter, applyFilterLoop_idempotent selectedDays _ _ h1]

/-- C16 on the example navigator and the same navigator after a reset. -/
theorem applyFilter_recomputes_witness :
    applyFilter exampleNavigator [0, 1] = applyFilter (clearCurrentFilter exampleNavigator) [0, 1] ∧
      ∀ after, applyFilter exampleNavigator [0, 1] = some after →
        applyFilter after [0, 1] = some after :=
  applyFilter_recomputes exampleNavigator (clearCurrentFilter exampleNavigator) [0, 1]
    (by decide)
    (List.Forall₂.cons ⟨Symbol.base, by decide⟩
      (List.Forall₂.cons ⟨Symbol.base, by decide⟩ List.Forall₂.nil))

/-- The classifiers read the three getters only. -/
theorem anyBad_congr (m1 m2 : Mountain)
    (hc : m1.getDailyWeatherConditions = m2.getDailyWeatherConditions)
    (hw : m1.getDailyWindSpeed = m2.getDailyWindSpeed)
    (hp : m1.getDailyPrecipitation = m2.getDailyPrecipitation) (day : Int) :
    anyBadConditionForecastForDay m1 day = anyBadConditionForecastForDay m2 day := by
  simp only [anyBadConditionForecastForDay, hc, hw, hp]

theorem anyMarginal_congr (m1 m2 : Mountain)
    (hc : m1.getDailyWeatherConditions = m2.getDailyWeatherConditions)
    (hw : m1.getDailyWindSpeed = m2.getDailyWindSpeed)
    (hp : m1.getDailyPrecipitation = m2.getDailyPrecipitation) (day : Int) :
    anyMarginalConditionForecastForDay m1 day = anyMarginalConditionForecastForDay m2 day := by
  simp only [anyMarginalConditionForecastForDay, hc, hw, hp]

theorem badLoop_congr (m1 m2 : Mountain)
    (h : ∀ day, anyBadConditionForecastForDay m1 day = anyBadConditionForecastForDay m2 day)
    (selectedDays : List Int) : badLoop m1 selectedDays = badLoop m2 selectedDays := by
  induction selectedDays with
  | nil => rfl
  | cons day rest ih => simp only [badLoop, h day, ih]

theorem marginalLoop_congr (m1 m2 : Mountain)
    (h : ∀ day,
      anyMarginalConditionForecastForDay m1 day = anyMarginalConditionForecastForDay m2 day)
    (selectedDays : List Int) : marginalLoop m1 selectedDays = marginalLoop m2 selectedDays := by
  induction selectedDays with
  | nil => rfl
  | cons day rest ih => simp only [marginalLoop, h day, ih]

/-- The symbol `applyFilter` assigns is a function of the two loops. -/
theorem applyFilterToMountain_symbol_eq (mountain : Mountain) (selectedDays : List Int) :
    (applyFilterToMountain mountain selectedDays).map Mountain.symbol =
      match badLoop mountain selectedDays with
      | none => none
      | some true => some Symbol.red
      | some false =>
        match marginalLoop mountain selectedDays with
        | none => none
        | some true => some Symbol.orange
        | some false => some Symbol.green := by
  have hb : badLoop { mountain with symbol := Symbol.green } selectedDays =
      badLoop mountain selectedDays :=
    badLoop_congr _ _ (fun day => anyBad_symbol mountain Symbol.green day) selectedDays
  have hm : marginalLoop { mountain with symbol := Symbol.green } selectedDays =
      marginalLoop mountain selectedDays :=
    marginalLoop_congr _ _ (fun day => anyMarginal_symbol mountain Symbol.green day) selectedDays
  simp only [applyFilterToMountain, hb, hm]
  cases badLoop mountain selectedDays with
  | none => rfl
  | some b =>
    cases b with
    | true => rfl
    | false =>
      cases marginalLoop mountain selectedDays with
      | none => rfl
      | some b2 => cases b2 <;> rfl

/-- C18: two mountains whose daily condition, wind-speed and precipitation series
agree are classified alike on every day and get the same symbol from
`applyFilter` for every selection; in particular replacing the wind-gust and
wind-direction series of a mountain changes neither. -/
theorem colour_independent_of_gusts_and_direction (m1 m2 : Mountain)
    (hc : m1.getDailyWeatherConditions = m2.getDailyWeatherConditions)
    (hw : m1.getDailyWindSpeed = m2.getDailyWindSpeed)
    (hp : m1.getDailyPrecipitation = m2.getDailyPrecipitation) :
    (∀ day, anyBadConditionForecastForDay m1 day = anyBadConditionForecastForDay m2 day) ∧
      (∀ day, anyMarginalConditionForecastForDay m1 day =
        anyMarginalConditionForecastForDay m2 day) ∧
      (∀ selectedDays, (applyFilterToMountain m1 selectedDays).map Mountain.symbol =
        (applyFilterToMountain m2 selectedDays).map Mountain.symbol) ∧
      (∀ (gusts : QMap QDate Double) (directions : QMap QDate String) selectedDays,
        (applyFilterToMountain
          { m1 with m_windgusts_daily := gusts, m_winddirection_daily := directions }
          selectedDays).map Mountain.symbol =
        (applyFilterToMountain m2 selectedDays).map Mountain.symbol) := by
  have hbad := anyBad_congr m1 m2 hc hw hp
  have hmar := anyMarginal_congr m1 m2 hc hw hp
  refine ⟨hbad, hmar, ?_, ?_⟩
  · intro selectedDays
    rw [applyFilterToMountain_symbol_eq, applyFilterToMountain_symbol_eq,
      badLoop_congr m1 m2 hbad, marginalLoop_congr m1 m2 hmar]
  · intro gusts directions selectedDays
    have hb := badLoop_congr
      { m1 with m_windgusts_daily := gusts, m_winddirection_daily := directions } m2
      (fun day => (anyBad_congr _ m1 rfl rfl rfl day).trans (hbad day)) selectedDays
    have hm := marginalLoop_congr
      { m1 with m_windgusts_daily := gusts, m_winddirection_daily := directions } m2
      (fun day => (anyMarginal_congr _ m1 rfl rfl rfl day).trans (hmar day)) selectedDays
    rw [applyFilterToMountain_symbol_eq, applyFilterToMountain_symbol_eq, hb, hm]

/-- C18 on a three-day mountain and a copy with gusts and directions added. -/
theorem colour_independent_of_gusts_and_direction_witness :
    (applyFilterToMountain threeDayMountain [0, 1]).map Mountain.symbol =
      (applyFilterToMountain
        { threeDayMountain with
          m_windgusts_daily := [(0, 90), (1, 95), (2, 99)]
          m_winddirection_daily := [(0, "N"), (1, "?"), (2, "SW")] }
        [0, 1]).map Mountain.symbol :=
  (colour_independent_of_gusts_and_direction threeDayMountain
    { threeDayMountain with
      m_windgusts_daily := [(0, 90), (1, 95), (2, 99)]
      m_winddirection_daily := [(0, "N"), (1, "?"), (2, "SW")] }
    (by decide) (by decide) (by decide)).2.2.1 [0, 1]

/-- On days in range the first loop depends on the set of selected days only. -/
theorem badLoop_set (mountain : Mountain) (days1 days2 : List Int)
    (h1 : ∀ day ∈ days1, dayInRange mountain day)
    (hset : ∀ day, day ∈ days1 ↔ day ∈ days2) :
    badLoop mountain days1 = badLoop mountain days2 := by
  have h2 : ∀ day ∈ days2, dayInRange mountain day := fun d hd => h1 d ((hset d).mpr hd)
  rcases badLoop_spec mountain days1 (fun d hd => anyBad_isSome mountain d (h1 d hd)) with
    ⟨e1, d, hd, hbad⟩ | ⟨e1, hall⟩ <;>
  rcases badLoop_spec mountain days2 (fun d hd => anyBad_isSome mountain d (h2 d hd)) with
    ⟨e2, d2, hd2, hbad2⟩ | ⟨e2, hall2⟩
  · rw [e1, e2]
  · have := hall2 d ((hset d).mp hd)
    rw [hbad] at this
    cases this
  · have := hall d2 ((hset d2).mpr hd2)
    rw [hbad2] at this
    cases this
  · rw [e1, e2]

/-- On days in range the second loop depends on the set of selected days only. -/
theorem marginalLoop_set (mountain : Mountain) (days1 days2 : List Int)
    (h1 : ∀ day ∈ days1, dayInRange mountain day)
    (hset : ∀ day, day ∈ days1 ↔ day ∈ days2) :
    marginalLoop mountain days1 = marginalLoop mountain days2 := by
  have h2 : ∀ day ∈ days2, dayInRange mountain day := fun d hd => h1 d ((hset d).mpr hd)
  rcases marginalLoop_spec mountain days1
      (fun d hd => anyMarginal_isSome mountain d (h1 d hd)) with
    ⟨e1, d, hd, hbad⟩ | ⟨e1, hall⟩ <;>
  rcases marginalLoop_spec mountain days2
      (fun d hd => anyMarginal_isSome mountain d (h2 d hd)) with
    ⟨e2, d2, hd2, hbad2⟩ | ⟨e2, hall2⟩
  · rw [e1, e2]
  · have := hall2 d ((hset d).mp hd)
    rw [hbad] at this
    cases this
  · have := hall d2 ((hset d2).mpr hd2)
    rw [hbad2] at this
    cases this
  · rw [e1, e2]

/-- C19: for two non-empty lists of day indices that are in range and have the
same elements, in any order and with any repetitions, `applyFilter` returns for
the mountain with both and assigns the same symbol. -/
theorem colour_depends_on_set_of_days (mountain : Mountain) (days1 days2 : List Int)
    (_hne1 : days1 ≠ []) (_hne2 : days2 ≠ [])
    (hrange : ∀ day ∈ days1, dayInRange mountain day)
    (hset : ∀ day, day ∈ days1 ↔ day ∈ days2) :
    applyFilterToMountain mountain days1 = applyFilterToMountain mountain days2 ∧
      ∃ c, applyFilterToMountain mountain days1 = some { mountain with symbol := c } := by
  have hb : badLoop { mountain with symbol := Symbol.green } days1 =
      badLoop { mountain with symbol := Symbol.green } days2 :=
    badLoop_set _ days1 days2 hrange hset
  have hm : marginalLoop { mountain with symbol := Symbol.green } days1 =
      marginalLoop { mountain with symbol := Symbol.green } days2 :=
    marginalLoop_set _ days1 days2 hrange hset
  obtain ⟨c, hc, -⟩ := applyFilterToMountain_spec mountain days1 hrange
  exact ⟨by simp only [applyFilterToMountain, hb, hm], c, hc⟩

/-- C19 on a three-day mountain: a bad day last, and first with repetitions. -/
theorem colour_depends_on_set_of_days_witness :
    applyFilterToMountain threeDayMountain [0, 1, 2] =
        applyFilterToMountain threeDayMountain [2, 2, 1, 0, 1] ∧
      ∃ c, applyFilterToMountain threeDayMountain [0, 1, 2] =
        some { threeDayMountain with symbol := c } :=
  colour_depends_on_set_of_days threeDayMountain [0, 1, 2] [2, 2, 1, 0, 1] (by decide)
    (by decide) (by decide) (by intro day; simp only [List.mem_cons, List.mem_singleton,
      List.not_mem_nil, or_false]; omega)

/-! ## Weather codes: theorems -/

/-- Lookup after an assignment. -/
theorem QMap.find_assign {κ ν : Type} [LinearOrder κ] (k : κ) (v : ν) (m : QMap κ ν) (k2 : κ) :
    QMap.find (QMap.assign k v m) k2 = if k2 = k then some v else QMap.find m k2 := by
  induction m with
  | nil =>
    by_cases h : k2 = k
    · simp [QMap.assign, QMap.find, h]
    · have h2 : ¬ k = k2 := fun e => h e.symm
      simp [QMap.assign, QMap.find, h, h2]
  | cons e rest ih =>
    obtain ⟨k1, v1⟩ := e
    simp only [QMap.find] at ih
    by_cases hlt : k < k1
    · by_cases h : k2 = k
      · simp [QMap.assign, QMap.find, hlt, h]
      · have h2 : ¬ k = k2 := fun e => h e.symm
        simp [QMap.assign, QMap.find, hlt, h, h2]
    · by_cases heq : k = k1
      · subst heq
        by_cases h : k2 = k
        · simp [QMap.assign, QMap.find, h]
        · have h2 : ¬ k = k2 := fun e => h e.symm
          simp [QMap.assign, QMap.find, h, h2]
      · by_cases h : k2 = k
        · subst h
          have h3 : ¬ k1 = k2 := fun e => heq e.symm
          simp only [QMap.assign, hlt, heq, if_false, QMap.find, List.find?_cons, h3,
            decide_False, ih, if_true]
        · by_cases h4 : k1 = k2
          · subst h4
            simp [QMap.assign, QMap.find, hlt, heq, h]
          · simp only [QMap.assign, hlt, heq, if_false, QMap.find, List.find?_cons, h4,
              decide_False, ih, h]

/-- A read `table[code]` leaves every description as it was: the entry it may
insert holds the empty description an absent code reads as anyway. -/
theorem weatherDescription_subscript (table : QMap Int String) (code c : Int) :
    weatherDescription (QMap.subscript table code).2 c = weatherDescription table c := by
  unfold weatherDescription QMap.subscript
  cases hfind : QMap.find table code with
  | some v => rfl
  | none =>
    simp only [QMap.find_assign]
    by_cases h : c = code
    · subst h
      simp [hfind]
    · simp only [h, if_false]
      cases QMap.find table c <;> rfl

/-- A stored description is the empty one or an entry of the table. -/
theorem weatherDescription_mem (table : QMap Int String) (c : Int) :
    weatherDescription table c = "" ∨ (c, weatherDescription table c) ∈ table := by
  unfold weatherDescription QMap.subscript
  cases hfind : QMap.find table c with
  | none => exact Or.inl rfl
  | some v =>
    right
    simp only [QMap.find, Option.map_eq_some'] at hfind
    obtain ⟨e, he, rfl⟩ := hfind
    have h1 := List.find?_some he
    have h2 := List.mem_of_find?_eq_some he
    simp only [decide_eq_true_eq] at h1
    subst h1
    exact h2

/-- On strictly ascending dates the loop of `setDailyWeatherConditions` stores the
descriptions in the order of the codes, and leaves every description of the
table as it was. -/
theorem weatherLoop_ascending (dates : List QDate) (newData : List Int)
    (table : QMap Int String) (hasc : dates.Pairwise (fun a b => a < b)) (n : Nat)
    (hn : n ≤ dates.length) (hd : n ≤ newData.length) :
    ∃ grown, forCounter n (weatherStep dates newData) (table, []) =
        some (grown, (dates.take n).zip ((newData.take n).map (weatherDescription table))) ∧
      ∀ c, weatherDescription grown c = weatherDescription table c := by
  induction n with
  | zero => exact ⟨table, rfl, fun _ => rfl⟩
  | succ k ih =>
    have hk1 : k < dates.length := by omega
    have hk2 : k < newData.length := by omega
    obtain ⟨grown, ih1, hinv⟩ := ih (by omega) (by omega)
    simp only [forCounter] at ih1
    refine ⟨(QMap.subscript grown newData[k]).2, ?_, ?_⟩
    · simp only [forCounter, List.range_succ, List.foldlM_append, List.foldlM_cons,
        List.foldlM_nil, ih1]
      have hstep : weatherStep dates newData
          (grown, (dates.take k).zip ((newData.take k).map (weatherDescription table))) k =
          some ((QMap.subscript grown newData[k]).2,
            QMap.assign dates[k] (weatherDescription table newData[k])
              ((dates.take k).zip ((newData.take k).map (weatherDescription table)))) := by
        simp only [weatherStep, List.getElem?_eq_getElem hk1, List.getElem?_eq_getElem hk2]
        rw [← hinv newData[k]]
        rfl
      have hbelow : ∀ e ∈ (dates.take k).zip ((newData.take k).map (weatherDescription table)),
          e.1 < dates[k] := by
        rintro ⟨a, b⟩ he
        have ha := (List.of_mem_zip he).1
        obtain ⟨i, hi, rfl⟩ := List.mem_take_iff_getElem.mp ha
        exact List.pairwise_iff_getElem.mp hasc i k (by omega) hk1 (by omega)
      have hlen : (dates.take k).length =
          ((newData.take k).map (weatherDescription table)).length := by
        simp [List.length_take]
        omega
      simp only [Option.some_bind, Option.bind_eq_bind, hstep, Option.some.injEq, pure]
      rw [QMap.assign_append _ _ _ hbelow, List.take_succ, List.take_succ,
        List.getElem?_eq_getElem hk1, List.getElem?_eq_getElem hk2]
      simp only [Option.toList, List.map_append, List.map_cons, List.map_nil]
      rw [List.zip_append hlen]
      rfl
    · intro c
      rw [weatherDescription_subscript]
      exact hinv c

theorem dailyLoop_full {β γ : Type} (convert : β → γ) (dates : List QDate)
    (newData : List β) (hasc : dates.Pairwise (fun a b => a < b))
    (hlen : newData.length = dates.length) :
    forCounter dates.length (dailyStep convert dates newData) [] =
      some (dates.zip (newData.map convert)) := by
  have h := dailyLoop_ascending convert dates newData hasc dates.length (le_refl _) (by omega)
  rw [List.take_length, ← hlen, List.take_length] at h
  rw [← hlen]
  exact h

theorem weatherLoop_full (dates : List QDate) (newData : List Int) (table : QMap Int String)
    (hasc : dates.Pairwise (fun a b => a < b)) (hlen : newData.length = dates.length) :
    ∃ grown, forCounter dates.length (weatherStep dates newData) (table, []) =
        some (grown, dates.zip (newData.map (weatherDescription table))) ∧
      ∀ c, weatherDescription grown c = weatherDescription table c := by
  obtain ⟨grown, h, hinv⟩ :=
    weatherLoop_ascending dates newData table hasc dates.length (le_refl _) (by omega)
  rw [List.take_length, ← hlen, List.take_length] at h
  rw [← hlen]
  exact ⟨grown, h, hinv⟩

/-- Ingestion of an aligned `daily` object succeeds; afterwards every daily
getter returns the converted array, in the order of the dates. -/
theorem assignDailyDataToMountain_aligned (cv : VariantConversions) (dailyData : QVariantMap)
    (mountain : Mountain) (h : DailyPayloadAligned cv dailyData) :
    ∃ after, assignDailyDataToMountain cv dailyData mountain = some after ∧
      after.getDates = dailyDates cv dailyData ∧
      after.getDailyWeatherConditions =
        (dailyWeatherCodes cv dailyData).map
          (weatherDescription mountain.m_dailyConditionsMap) ∧
      after.getDailyWindDirection =
        (dailyWindDirections cv dailyData).map convertWindDirectionToOrientation ∧
      after.getDailyWindGusts = dailyWindGusts cv dailyData ∧
      after.getDailyWindSpeed = dailyWindSpeeds cv dailyData ∧
      after.getDailyPrecipitation = dailyPrecipitations cv dailyData := by
  unfold DailyPayloadAligned at h
  unfold dailyDates dailyWeatherCodes dailyWindDirections dailyWindGusts dailyWindSpeeds
    dailyPrecipitations at *
  unfold assignDailyDataToMountain
  simp only []
  generalize convertQVariantListToTypedList cv.toDate (dailyData.value "time").toList =
    dates at *
  generalize convertQVariantListToTypedList cv.toInt (dailyData.value "weathercode").toList =
    codes at *
  generalize convertQVariantListToTypedList cv.toInt
    (dailyData.value "winddirection_10m_dominant").toList = directions at *
  generalize convertQVariantListToTypedList cv.toDouble
    (dailyData.value "windgusts_10m_max").toList = gusts at *
  generalize convertQVariantListToTypedList cv.toDouble
    (dailyData.value "windspeed_10m_max").toList = speeds at *
  generalize convertQVariantListToTypedList cv.toDouble
    (dailyData.value "precipitation_sum").toList = precipitations at *
  obtain ⟨hasc, hcodes, hdirections, hgusts, hspeeds, hprecipitations⟩ := h
  obtain ⟨grown, hweather, -⟩ :=
    weatherLoop_full dates codes mountain.m_dailyConditionsMap hasc hcodes
  have hd := dailyLoop_full convertWindDirectionToOrientation dates directions hasc hdirections
  have hg := dailyLoop_full (id : Double → Double) dates gusts hasc hgusts
  have hs := dailyLoop_full (id : Double → Double) dates speeds hasc hspeeds
  have hp := dailyLoop_full (id : Double → Double) dates precipitations hasc hprecipitations
  simp only [List.map_id] at hg hs hp
  simp only [Mountain.setDates, Mountain.setDailyWeatherConditions, hweather, Option.map_some',
    Mountain.setDailyWindDirection, hd, Mountain.setDailyWindGusts, hg,
    Mountain.setDailyWindSpeed, hs, Mountain.setDailyPrecipitation, hp]
  refine ⟨_, rfl, rfl, ?_, ?_, ?_, ?_, ?_⟩
  · simp only [Mountain.getDailyWeatherConditions, QMap.values]
    exact List.map_snd_zip _ _ (by simp [hcodes])
  · simp only [Mountain.getDailyWindDirection, QMap.values]
    exact List.map_snd_zip _ _ (by simp [hdirections])
  · simp only [Mountain.getDailyWindGusts, QMap.values]
    exact List.map_snd_zip _ _ (by simp [hgusts])
  · simp only [Mountain.getDailyWindSpeed, QMap.values]
    exact List.map_snd_zip _ _ (by simp [hspeeds])
  · simp only [Mountain.getDailyPrecipitation, QMap.values]
    exact List.map_snd_zip _ _ (by simp [hprecipitations])

theorem listAt_natCast {α : Type} (l : List α) (i : Nat) : listAt l (i : Int) = l[i]? := by
  by_cases h : i < l.length
  · have h2 : (i : Int) < l.length := by omega
    simp [listAt, h2]
  · have h2 : ¬ (i : Int) < l.length := by omega
    simp [listAt, h2, List.getElem?_eq_none (not_lt.mp h)]

/-- What the classifiers read for a day of an aligned `daily` object after its
ingestion: the description of the code of that day, and its wind speed and
precipitation. -/
theorem ingested_day_reads (cv : VariantConversions) (dailyData : QVariantMap)
    (mountain : Mountain) (h : DailyPayloadAligned cv dailyData) (day : Nat) (code : Int)
    (hcode : (dailyWeatherCodes cv dailyData)[day]? = some code) :
    ∃ after windspeed precipitation,
      assignDailyDataToMountain cv dailyData mountain = some after ∧
      listAt after.getDailyWeatherConditions (day : Int) =
        some (weatherDescription mountain.m_dailyConditionsMap code) ∧
      listAt after.getDailyWindSpeed (day : Int) = some windspeed ∧
      listAt after.getDailyPrecipitation (day : Int) = some precipitation := by
  obtain ⟨after, hafter, -, hc, -, -, hw, hp⟩ :=
    assignDailyDataToMountain_aligned cv dailyData mountain h
  obtain ⟨-, hcodes, -, -, hspeeds, hprecipitations⟩ := h
  have hday : day < (dailyWeatherCodes cv dailyData).length := by
    by_contra hge
    rw [List.getElem?_eq_none (not_lt.mp hge)] at hcode
    cases hcode
  have hday2 : day < (dailyWindSpeeds cv dailyData).length := by omega
  have hday3 : day < (dailyPrecipitations cv dailyData).length := by omega
  refine ⟨after, (dailyWindSpeeds cv dailyData)[day], (dailyPrecipitations cv dailyData)[day],
    hafter, ?_, ?_, ?_⟩
  · rw [listAt_natCast, hc, List.getElem?_map, hcode]
    rfl
  · rw [listAt_natCast, hw, List.getElem?_eq_getElem hday2]
  · rw [listAt_natCast, hp, List.getElem?_eq_getElem hday3]

/-- C12: the table of `initialiseDailyConditionsMap` has exactly the 28 listed
keys, each with a non-empty description, among them "Clear", "Mainly Clear",
"Partly cloudy", "Overcast" for 0 to 3 and "Thunderstorms" for 95, 96 and 99;
and a day of an aligned `daily` object whose code is 95, 96 or 99 is bad after
ingestion, for every wind speed and precipitation of the object. The table of
the mountain is the initial one, up to the empty entries earlier reads added. -/
theorem conditions_table_and_thunderstorms (cv : VariantConversions)
    (dailyData : QVariantMap) (mountain : Mountain)
    (htable : ∀ c, weatherDescription mountain.m_dailyConditionsMap c =
      weatherDescription initialiseDailyConditionsMap c)
    (haligned : DailyPayloadAligned cv dailyData) (day : Nat) (code : Int)
    (hcode : (dailyWeatherCodes cv dailyData)[day]? = some code)
    (hthunder : code = 95 ∨ code = 96 ∨ code = 99) :
    QMap.keys initialiseDailyConditionsMap =
        [0, 1, 2, 3, 45, 48, 51, 53, 55, 56, 57, 61, 63, 65, 66, 67, 71, 73, 75, 77, 80, 81,
          82, 85, 86, 95, 96, 99] ∧
      (QMap.keys initialiseDailyConditionsMap).length = 28 ∧
      (∀ e ∈ initialiseDailyConditionsMap, e.2 ≠ "") ∧
      QMap.find initialiseDailyConditionsMap 0 = some "Clear" ∧
      QMap.find initialiseDailyConditionsMap 1 = some "Mainly Clear" ∧
      QMap.find initialiseDailyConditionsMap 2 = some "Partly cloudy" ∧
      QMap.find initialiseDailyConditionsMap 3 = some "Overcast" ∧
      QMap.find initialiseDailyConditionsMap 95 = some "Thunderstorms" ∧
      QMap.find initialiseDailyConditionsMap 96 = some "Thunderstorms" ∧
      QMap.find initialiseDailyConditionsMap 99 = some "Thunderstorms" ∧
      ∃ after, assignDailyDataToMountain cv dailyData mountain = some after ∧
        anyBadConditionForecastForDay after (day : Int) = some true := by
  refine ⟨by decide, by decide, by decide, by decide, by decide, by decide, by decide,
    by decide, by decide, by decide, ?_⟩
  obtain ⟨after, w, p, hafter, hc, hw, hp⟩ :=
    ingested_day_reads cv dailyData mountain haligned day code hcode
  have hdesc : weatherDescription mountain.m_dailyConditionsMap code = "Thunderstorms" := by
    rw [htable]
    rcases hthunder with rfl | rfl | rfl <;> decide
  refine ⟨after, hafter, ?_⟩
  simp [anyBadConditionForecastForDay, hc, hw, hp, hdesc]

/-- C12 on the first day of a three-day `daily` object, whose code is 95. -/
theorem conditions_table_and_thunderstorms_witness :
    ∃ after, assignDailyDataToMountain exampleConversions threeDayPayload
        (Mountain.new "Ben Nevis" 0 0 0) = some after ∧
      anyBadConditionForecastForDay after ((0 : Nat) : Int) = some true :=
  (conditions_table_and_thunderstorms exampleConversions threeDayPayload
    (Mountain.new "Ben Nevis" 0 0 0) (fun _ => rfl) (by decide) 0 95 (by decide)
    (Or.inl rfl)).2.2.2.2.2.2.2.2.2.2

/-- C20: no weather code reads as "Unknown" from the table, the codes whose
description is benign are exactly 0, 1, 2 and 3, and a day of an aligned `daily`
object whose code is none of them is never OK after ingestion: it is marginal
for the classifier, so it is bad or marginal, for every wind speed and
precipitation of the object. -/
theorem codes_outside_0_to_3_never_ok (cv : VariantConversions)
    (dailyData : QVariantMap) (mountain : Mountain)
    (htable : ∀ c, weatherDescription mountain.m_dailyConditionsMap c =
      weatherDescription initialiseDailyConditionsMap c)
    (haligned : DailyPayloadAligned cv dailyData) (day : Nat) (code : Int)
    (hcode : (dailyWeatherCodes cv dailyData)[day]? = some code)
    (hnot : code ≠ 0 ∧ code ≠ 1 ∧ code ≠ 2 ∧ code ≠ 3) :
    (∀ c : Int, weatherDescription initialiseDailyConditionsMap c ≠ "Unknown") ∧
      (∀ c : Int,
        conditionsDescriptionIsConcerning (weatherDescription initialiseDailyConditionsMap c) =
          false ↔ c = 0 ∨ c = 1 ∨ c = 2 ∨ c = 3) ∧
      ∃ after, assignDailyDataToMountain cv dailyData mountain = some after ∧
        anyMarginalConditionForecastForDay after (day : Int) = some true ∧
        (anyBadConditionForecastForDay after (day : Int) = some true ∨
          (anyBadConditionForecastForDay after (day : Int) = some false ∧
            anyMarginalConditionForecastForDay after (day : Int) = some true)) := by
  have hunknown : ∀ c : Int, weatherDescription initialiseDailyConditionsMap c ≠ "Unknown" := by
    intro c
    rcases weatherDescription_mem initialiseDailyConditionsMap c with h | h
    · rw [h]
      decide
    · have hall : ∀ e ∈ initialiseDailyConditionsMap, e.2 ≠ "Unknown" := by decide
      exact hall _ h
  have hbenign : ∀ c : Int,
      conditionsDescriptionIsConcerning (weatherDescription initialiseDailyConditionsMap c) =
        false ↔ c = 0 ∨ c = 1 ∨ c = 2 ∨ c = 3 := by
    intro c
    constructor
    · intro hfalse
      rcases weatherDescription_mem initialiseDailyConditionsMap c with h | h
      · rw [h] at hfalse
        exact absurd hfalse (by decide)
      · have hall : ∀ e ∈ initialiseDailyConditionsMap,
            conditionsDescriptionIsConcerning e.2 = false →
              e.1 = 0 ∨ e.1 = 1 ∨ e.1 = 2 ∨ e.1 = 3 := by decide
        exact hall _ h hfalse
    · rintro (rfl | rfl | rfl | rfl) <;> decide
  refine ⟨hunknown, hbenign, ?_⟩
  obtain ⟨after, w, p, hafter, hc, hw, hp⟩ :=
    ingested_day_reads cv dailyData mountain haligned day code hcode
  have hconcerning : conditionsDescriptionIsConcerning
      (weatherDescription mountain.m_dailyConditionsMap code) = true := by
    rw [htable]
    cases hb : conditionsDescriptionIsConcerning
        (weatherDescription initialiseDailyConditionsMap code) with
    | true => rfl
    | false =>
      rcases (hbenign code).mp hb with h | h | h | h
      · exact absurd h hnot.1
      · exact absurd h hnot.2.1
      · exact absurd h hnot.2.2.1
      · exact absurd h hnot.2.2.2
  have hmarginal : anyMarginalConditionForecastForDay after (day : Int) = some true := by
    simp [anyMarginalConditionForecastForDay, hc, hw, hp, hconcerning]
  refine ⟨after, hafter, hmarginal, ?_⟩
  have hbad : ∃ b, anyBadConditionForecastForDay after (day : Int) = some b := by
    simp only [anyBadConditionForecastForDay, hc, hw, hp]
    split_ifs <;> simp
  obtain ⟨b, hb⟩ := hbad
  cases b with
  | true => exact Or.inl hb
  | false => exact Or.inr ⟨hb, hmarginal⟩

/-- C20 on the third day of a three-day `daily` object, whose code 4 is not in
the table. -/
theorem codes_outside_0_to_3_never_ok_witness :
    ∃ after, assignDailyDataToMountain exampleConversions threeDayPayload
        (Mountain.new "Ben Nevis" 0 0 0) = some after ∧
      anyMarginalConditionForecastForDay after ((2 : Nat) : Int) = some true ∧
      (anyBadConditionForecastForDay after ((2 : Nat) : Int) = some true ∨
        (anyBadConditionForecastForDay after ((2 : Nat) : Int) = some false ∧
          anyMarginalConditionForecastForDay after ((2 : Nat) : Int) = some true)) :=
  (codes_outside_0_to_3_never_ok exampleConversions threeDayPayload
    (Mountain.new "Ben Nevis" 0 0 0) (fun _ => rfl) (by decide) 2 4 (by decide)
    (by decide)).2.2

/-! ## Filter toggles: theorems -/

/-- A loop that appends what `f` finds collects the results of `f` in order. -/
theorem foldl_collect {α β : Type} (f : α → Option β) (g : List β → α → List β)
    (hg : ∀ acc i, g acc i = acc ++ (f i).toList) (l : List α) (acc : List β) :
    l.foldl g acc = acc ++ l.filterMap f := by
  induction l generalizing acc with
  | nil => simp
  | cons a rest ih =>
    simp only [List.foldl_cons, List.filterMap_cons, hg, ih]
    cases f a with
    | none => simp
    | some x => simp

/-- When nothing was dropped, entry `i` of the collected list comes from entry `i`. -/
theorem filterMap_full {α β : Type} (f : α → Option β) (l : List α)
    (hlen : (l.filterMap f).length = l.length) (i : Nat) :
    (l.filterMap f)[i]? = l[i]?.bind f := by
  induction l generalizing i with
  | nil => simp
  | cons a rest ih =>
    cases hfa : f a with
    | none =>
      rw [List.filterMap_cons_none hfa] at hlen
      have := List.length_filterMap_le f rest
      simp only [List.length_cons] at hlen
      omega
    | some b =>
      rw [List.filterMap_cons_some hfa] at hlen ⊢
      simp only [List.length_cons, add_left_inj] at hlen
      cases i with
      | zero => simp [hfa]
      | succ j => simpa using ih hlen j

/-- The labelling loop on the first `n` toggles. -/
theorem labelLoop_spec (currentDate : QDate) (toggles : List Toggle) (n : Nat)
    (hn : n ≤ toggles.length) :
    ∃ labelled, forCounter n (labelStep currentDate) toggles = some labelled ∧
      labelled.length = toggles.length ∧
      ∀ i (hi : i < toggles.length), labelled[i]? =
        some (if i < n then
          { toggles[i] with
            text := QDate.toStringDdd (QDate.addDays currentDate (i : Int)) }
          else toggles[i]) := by
  induction n with
  | zero =>
    refine ⟨toggles, rfl, rfl, ?_⟩
    intro i hi
    simp [List.getElem?_eq_getElem hi]
  | succ k ih =>
    obtain ⟨labelled, hloop, hlen, hget⟩ := ih (by omega)
    have hk : k < toggles.length := by omega
    simp only [forCounter] at hloop
    have hat : listAt labelled (k : Int) = some toggles[k] := by
      rw [listAt_natCast, hget k hk]
      simp
    refine ⟨labelled.set k
      { toggles[k] with text := QDate.toStringDdd (QDate.addDays currentDate (k : Int)) },
      ?_, by simp [hlen], ?_⟩
    · simp only [forCounter, List.range_succ, List.foldlM_append, List.foldlM_cons,
        List.foldlM_nil, hloop]
      simp [labelStep, hat]
    · intro i hi
      rw [List.getElem?_set]
      by_cases hik : k = i
      · subst hik
        simp [hlen, hi]
      · simp only [hik, if_false, hget i hi]
        by_cases h1 : i < k
        · have h2 : i < k + 1 := by omega
          simp [h1, h2]
        · have h2 : ¬ i < k + 1 := by omega
          simp [h1, h2]

/-- C17 as stated fails: in a view with the seven toggles, on a Wednesday
(Julian day 2460614), the toggle named `day1FilterOption` is labelled "Wed", the
day name of today, while today + 1 is "Thu". -/
theorem day1_toggle_labelled_today :
    (assignLabelsToUIFilterOptions 2460614
        (getReferencesToFilterOptionToggles exampleViewChildren emptyNavigator)).map
      (fun s => s.m_filterToggles.map (fun toggle => (toggle.objectName, toggle.text))) =
      some [("day1FilterOption", "Wed"), ("day2FilterOption", "Thu"),
        ("day3FilterOption", "Fri"), ("day4FilterOption", "Sat"),
        ("day5FilterOption", "Sun"), ("day6FilterOption", "Mon"),
        ("day7FilterOption", "Tue")] ∧
      filterOptionName 1 = "day1FilterOption" ∧
      QDate.toStringDdd (QDate.addDays 2460614 1) = "Thu" ∧
      ¬ ∀ toggle ∈ ((assignLabelsToUIFilterOptions 2460614
          (getReferencesToFilterOptionToggles exampleViewChildren emptyNavigator)).map
            (fun s => s.m_filterToggles)).getD [],
        toggle.objectName = filterOptionName 1 →
          toggle.text = QDate.toStringDdd (QDate.addDays 2460614 1) := by
  decide

/-- C17, amended: when all seven toggles are found, `assignLabelsToUIFilterOptions`
returns, and for every `N` in 1..7 the toggle at list position `N - 1` is the one
named `day<N>FilterOption` and is labelled with the day name of today + (N - 1)
days. -/
theorem filter_toggles_labelled (mapViewChildren : List Toggle) (currentDate : QDate)
    (s : ConditionsNavigator)
    (hall : (getReferencesToFilterOptionToggles mapViewChildren s).m_filterToggles.length = 7) :
    ∃ after, assignLabelsToUIFilterOptions currentDate
        (getReferencesToFilterOptionToggles mapViewChildren s) = some after ∧
      after.m_mountains = s.m_mountains ∧
      after.m_filterToggles.length = 7 ∧
      ∀ N : Nat, 1 ≤ N → N ≤ 7 →
        ∃ found, findChild mapViewChildren (filterOptionName N) = some found ∧
          found.objectName = filterOptionName N ∧
          after.m_filterToggles[N - 1]? =
            some { found with
              text := QDate.toStringDdd (QDate.addDays currentDate ((N : Int) - 1)) } := by
  have hrefs : (getReferencesToFilterOptionToggles mapViewChildren s).m_filterToggles =
      (List.range' 1 7).filterMap (fun i => findChild mapViewChildren (filterOptionName i)) := by
    have hfold := foldl_collect (fun i => findChild mapViewChildren (filterOptionName i))
      (fun toggles i =>
        match findChild mapViewChildren (filterOptionName i) with
        | some filterOption => toggles ++ [filterOption]
        | none => toggles)
      (by
        intro acc i
        dsimp only
        cases findChild mapViewChildren (filterOptionName i) <;> simp)
      (List.range' 1 7) []
    rw [List.nil_append] at hfold
    rw [← hfold]
    rfl
  obtain ⟨labelled, hloop, hlen, hget⟩ := labelLoop_spec currentDate
    (getReferencesToFilterOptionToggles mapViewChildren s).m_filterToggles 7 (by omega)
  refine ⟨{ getReferencesToFilterOptionToggles mapViewChildren s with
      m_filterToggles := labelled }, ?_, rfl, by simp [hlen, hall], ?_⟩
  · simp [assignLabelsToUIFilterOptions, hloop]
  · intro N h1 h7
    have hi : N - 1 < (getReferencesToFilterOptionToggles mapViewChildren
        s).m_filterToggles.length := by omega
    have hfull := filterMap_full
      (fun i => findChild mapViewChildren (filterOptionName i)) (List.range' 1 7)
      (by rw [← hrefs, hall]; simp) (N - 1)
    rw [← hrefs, List.getElem?_range' 1 1 (by omega : N - 1 < 7),
      List.getElem?_eq_getElem hi] at hfull
    have hN : 1 + 1 * (N - 1) = N := by omega
    simp only [Option.some_bind, hN] at hfull
    refine ⟨_, hfull.symm, ?_, ?_⟩
    · have := List.find?_some hfull.symm
      simpa using this
    · have hlt : N - 1 < 7 := by omega
      have hcast : ((N - 1 : Nat) : Int) = (N : Int) - 1 := by omega
      simp only [hget (N - 1) hi, hlt, if_true, hcast]

/-- C17, amended, on a view with the seven toggles, on a Wednesday. -/
theorem filter_toggles_labelled_witness :
    ∃ after, assignLabelsToUIFilterOptions 2460614
        (getReferencesToFilterOptionToggles exampleViewChildren emptyNavigator) = some after ∧
      after.m_mountains = emptyNavigator.m_mountains ∧
      after.m_filterToggles.length = 7 ∧
      ∀ N : Nat, 1 ≤ N → N ≤ 7 →
        ∃ found, findChild exampleViewChildren (filterOptionName N) = some found ∧
          found.objectName = filterOptionName N ∧
          after.m_filterToggles[N - 1]? =
            some { found with
              text := QDate.toStringDdd (QDate.addDays 2460614 ((N : Int) - 1)) } :=
  filter_toggles_labelled exampleViewChildren 2460614 emptyNavigator (by decide)

/-! ## Payloads without timestamps: theorems -/

/-- `setHourlyDateTime` fails exactly on the empty list. -/
theorem setHourlyDateTime_ne_none_iff (m : Mountain) (ts : List QDateTime) :
    m.setHourlyDateTime ts ≠ none ↔ ts ≠ [] := by
  constructor
  · rintro h rfl
    exact h rfl
  · intro hne
    rw [setHourlyDateTime_eq m ts hne]
    simp

/-- C21: `setHourlyDateTime` takes `last()` of the list it was given, which is
defined exactly for a non-empty list. For a JSON object that has members but no
`hourly` object, or whose `hourly` object has no `time` array or an empty one,
`processResponse` passes the emptiness check, the timestamp list it converts is
empty, and it runs into the failing `last()` instead of returning with the
mountain unchanged. -/
theorem processResponse_empty_timestamps (cv : VariantConversions) (members : QVariantMap)
    (mountain : Mountain) (g : Extrema) (ts : List QDateTime)
    (hne : members ≠ [])
    (h : (∀ hourly, members.value "hourly" ≠ QVariant.map hourly) ∨
      ∃ hourly, members.value "hourly" = QVariant.map hourly ∧
        ((∀ items, QVariantMap.value hourly "time" ≠ QVariant.list items) ∨
          QVariantMap.value hourly "time" = QVariant.list [])) :
    (listLast ts ≠ none ↔ ts ≠ []) ∧
      (mountain.setHourlyDateTime ts ≠ none ↔ ts ≠ []) ∧
      (QJsonDocument.object members).isObject = true ∧
      members.isEmpty = false ∧
      convertQVariantListToTypedList cv.toDateTime
        ((members.value "hourly").toMap.value "time").toList = [] ∧
      assignHourlyDataToMountain cv (members.value "hourly").toMap mountain = none ∧
      processResponse cv (QJsonDocument.object members) mountain g = none := by
  have hlast : listLast ts ≠ none ↔ ts ≠ [] := by
    cases ts with
    | nil => simp [listLast]
    | cons t rest => simp [listLast, List.getLast?_eq_getLast _ (List.cons_ne_nil t rest)]
  have hnonempty : members.isEmpty = false := by
    cases members with
    | nil => exact absurd rfl hne
    | cons e rest => rfl
  have htime : ((members.value "hourly").toMap.value "time").toList = [] := by
    rcases h with h | ⟨hourly, hh, ht | ht⟩
    · cases hv : members.value "hourly" with
      | map entries => exact absurd hv (h entries)
      | _ => rfl
    · rw [hh]
      simp only [QVariant.toMap]
      cases hv : QVariantMap.value hourly "time" with
      | list items => exact absurd hv (ht items)
      | _ => rfl
    · rw [hh]
      simp only [QVariant.toMap, ht, QVariant.toList]
  have hconv : convertQVariantListToTypedList cv.toDateTime
      ((members.value "hourly").toMap.value "time").toList = [] := by
    rw [htime]
    rfl
  have hassign : assignHourlyDataToMountain cv (members.value "hourly").toMap mountain =
      none := by
    simp only [assignHourlyDataToMountain, hconv, Mountain.setHourlyDateTime, listLast,
      List.getLast?_nil]
  refine ⟨hlast, setHourlyDateTime_ne_none_iff mountain ts, rfl, hnonempty, hconv, hassign, ?_⟩
  simp only [processResponse, hnonempty, hassign]
  rfl

/-- C21 on an object without `hourly`. -/
theorem processResponse_empty_timestamps_witness :
    processResponse exampleConversions (QJsonDocument.object responseWithoutHourly)
        (Mountain.new "Ben Nevis" 0 0 0) Extrema.initial = none ∧
      processResponse exampleConversions (QJsonDocument.object responseWithEmptyTime)
        (Mountain.new "Ben Nevis" 0 0 0) Extrema.initial = none :=
  ⟨(processResponse_empty_timestamps exampleConversions responseWithoutHourly
      (Mountain.new "Ben Nevis" 0 0 0) Extrema.initial [] (List.cons_ne_nil _ _)
      (Or.inl (by intro hourly h; cases h))).2.2.2.2.2.2,
    (processResponse_empty_timestamps exampleConversions responseWithEmptyTime
      (Mountain.new "Ben Nevis" 0 0 0) Extrema.initial [] (List.cons_ne_nil _ _)
      (Or.inr ⟨[("temperature_2m", QVariant.list []), ("time", QVariant.list [])], rfl,
        Or.inr rfl⟩)).2.2.2.2.2.2⟩

/-! ## Dates in any order: theorems -/

/-- The keys after an assignment. -/
theorem QMap.mem_keys_assign {κ ν : Type} [LinearOrder κ] (k : κ) (v : ν) (m : QMap κ ν)
    (k2 : κ) : k2 ∈ QMap.keys (QMap.assign k v m) ↔ k2 = k ∨ k2 ∈ QMap.keys m := by
  induction m with
  | nil => simp [QMap.assign, QMap.keys]
  | cons e rest ih =>
    obtain ⟨k1, v1⟩ := e
    simp only [QMap.keys] at ih
    by_cases hlt : k < k1
    · simp [QMap.assign, QMap.keys, hlt]
    · by_cases heq : k = k1
      · subst heq
        simp [QMap.assign, QMap.keys]
      · simp only [QMap.assign, hlt, heq, if_false, QMap.keys, List.map_cons, List.mem_cons, ih]
        tauto

/-- An assignment keeps the keys strictly ascending. -/
theorem QMap.assign_sorted {κ ν : Type} [LinearOrder κ] (k : κ) (v : ν) (m : QMap κ ν)
    (h : (QMap.keys m).Pairwise (fun a b => a < b)) :
    (QMap.keys (QMap.assign k v m)).Pairwise (fun a b => a < b) := by
  induction m with
  | nil => simp [QMap.assign, QMap.keys]
  | cons e rest ih =>
    obtain ⟨k1, v1⟩ := e
    simp only [QMap.keys, List.map_cons, List.pairwise_cons] at h
    obtain ⟨hk1, hrest⟩ := h
    by_cases hlt : k < k1
    · simp only [QMap.assign, hlt, if_true, QMap.keys, List.map_cons, List.pairwise_cons,
        List.mem_cons]
      refine ⟨?_, hk1, hrest⟩
      rintro a (rfl | ha)
      · exact hlt
      · exact lt_trans hlt (hk1 a ha)
    · by_cases heq : k = k1
      · subst heq
        simp only [QMap.assign, lt_irrefl, if_false, if_true, QMap.keys, List.map_cons,
          List.pairwise_cons]
        exact ⟨hk1, hrest⟩
      · have hgt : k1 < k := lt_of_le_of_ne (not_lt.mp hlt) (fun e => heq e.symm)
        simp only [QMap.assign, hlt, heq, if_false, QMap.keys, List.map_cons,
          List.pairwise_cons]
        refine ⟨?_, ih hrest⟩
        intro a ha
        rcases (QMap.mem_keys_assign k v rest a).mp ha with rfl | ha
        · exact hgt
        · exact hk1 a ha

/-- A found value is an entry of the map. -/
theorem QMap.mem_of_find {κ ν : Type} [DecidableEq κ] (m : QMap κ ν) (k : κ) (v : ν)
    (h : QMap.find m k = some v) : (k, v) ∈ m := by
  simp only [QMap.find, Option.map_eq_some'] at h
  obtain ⟨e, he, rfl⟩ := h
  have h1 := List.find?_some he
  have h2 := List.mem_of_find?_eq_some he
  simp only [decide_eq_true_eq] at h1
  subst h1
  exact h2

theorem assignAll_sorted {γ : Type} (entries : List (QDate × γ)) (init : QMap QDate γ)
    (h : (QMap.keys init).Pairwise (fun a b => a < b)) :
    (QMap.keys (assignAll entries init)).Pairwise (fun a b => a < b) := by
  induction entries generalizing init with
  | nil => exact h
  | cons e rest ih => exact ih _ (QMap.assign_sorted e.1 e.2 init h)

theorem assignAll_mem_keys {γ : Type} (entries : List (QDate × γ)) (init : QMap QDate γ)
    (d : QDate) :
    d ∈ QMap.keys (assignAll entries init) ↔ d ∈ entries.map Prod.fst ∨ d ∈ QMap.keys init := by
  induction entries generalizing init with
  | nil => simp [assignAll]
  | cons e rest ih =>
    have := ih (QMap.assign e.1 e.2 init)
    simp only [assignAll, List.foldl_cons] at this ⊢
    rw [this, QMap.mem_keys_assign]
    simp only [List.map_cons, List.mem_cons]
    tauto

theorem assignAll_find_of_not_mem {γ : Type} (entries : List (QDate × γ))
    (init : QMap QDate γ) (d : QDate) (h : d ∉ entries.map Prod.fst) :
    QMap.find (assignAll entries init) d = QMap.find init d := by
  induction entries generalizing init with
  | nil => rfl
  | cons e rest ih =>
    simp only [List.map_cons, List.mem_cons, not_or] at h
    have := ih (QMap.assign e.1 e.2 init) h.2
    simp only [assignAll, List.foldl_cons] at this ⊢
    rw [this, QMap.find_assign, if_neg h.1]

/-- The last assignment to a date decides its value. -/
theorem assignAll_find_last {γ : Type} (before after : List (QDate × γ)) (d : QDate) (v : γ)
    (init : QMap QDate γ) (h : d ∉ after.map Prod.fst) :
    QMap.find (assignAll (before ++ (d, v) :: after) init) d = some v := by
  have hsplit : assignAll (before ++ (d, v) :: after) init =
      assignAll after (QMap.assign d v (assignAll before init)) := by
    simp [assignAll, List.foldl_append]
  rw [hsplit, assignAll_find_of_not_mem after _ d h, QMap.find_assign, if_pos rfl]

/-- The loop of a daily setter is the sequence of its assignments. -/
theorem dailyLoop_assignAll {β γ : Type} (convert : β → γ) (dates : List QDate)
    (newData : List β) (n : Nat) (hn : n ≤ dates.length) (hd : n ≤ newData.length) :
    forCounter n (dailyStep convert dates newData) [] =
      some (assignAll ((dates.zip (newData.map convert)).take n) []) := by
  induction n with
  | zero => rfl
  | succ k ih =>
    have hk1 : k < dates.length := by omega
    have hk2 : k < newData.length := by omega
    have hk3 : k < (dates.zip (newData.map convert)).length := by
      simp only [List.length_zip, List.length_map]
      omega
    have ih1 := ih (by omega) (by omega)
    simp only [forCounter] at ih1
    simp only [forCounter, List.range_succ, List.foldlM_append, List.foldlM_cons,
      List.foldlM_nil, ih1]
    have hentry : (dates.zip (newData.map convert))[k] = (dates[k], convert newData[k]) := by
      simp
    rw [List.take_succ, List.getElem?_eq_getElem hk3, hentry]
    simp [dailyStep, List.getElem?_eq_getElem hk1, List.getElem?_eq_getElem hk2, assignAll,
      List.foldl_append]

/-- A daily setter on dates in any order, with data at least as long. -/
theorem dailyLoop_any_order {β γ : Type} (convert : β → γ) (dates : List QDate)
    (newData : List β) (hlen : dates.length ≤ newData.length) :
    ∃ stored, forCounter dates.length (dailyStep convert dates newData) [] = some stored ∧
      StoresLastPerDate dates (newData.map convert) stored := by
  have hloop := dailyLoop_assignAll convert dates newData dates.length (le_refl _) hlen
  have hPlen : (dates.zip (newData.map convert)).length = dates.length := by
    simp only [List.length_zip, List.length_map]
    omega
  rw [← hPlen, List.take_length] at hloop
  rw [hPlen] at hloop
  have hfst : (dates.zip (newData.map convert)).map Prod.fst = dates :=
    List.map_fst_zip _ _ (by simp only [List.length_map]; exact hlen)
  have hsorted : (QMap.keys (assignAll (dates.zip (newData.map convert)) [])).Pairwise
      (fun a b => a < b) :=
    assignAll_sorted _ [] (by simp [QMap.keys])
  have hmem : ∀ d, d ∈ QMap.keys (assignAll (dates.zip (newData.map convert)) []) ↔
      d ∈ dates := by
    intro d
    rw [assignAll_mem_keys, hfst]
    simp [QMap.keys]
  have hcount : (QMap.values (assignAll (dates.zip (newData.map convert)) [])).length =
      dates.dedup.length := by
    have hperm := (List.perm_ext_iff_of_nodup hsorted.nodup (List.nodup_dedup dates)).mpr
      (fun d => (hmem d).trans List.mem_dedup.symm)
    rw [← hperm.length_eq]
    simp [QMap.values, QMap.keys]
  refine ⟨_, hloop, hsorted, hmem, ?_, hcount, ?_, ?_⟩
  · intro i d v hd hv hlast
    have hentry : (dates.zip (newData.map convert))[i]? = some (d, v) :=
      List.getElem?_zip_eq_some.mpr ⟨hd, hv⟩
    have hi : i < (dates.zip (newData.map convert)).length := by
      by_contra hge
      rw [List.getElem?_eq_none (not_lt.mp hge)] at hentry
      cases hentry
    have hget : (dates.zip (newData.map convert))[i] = (d, v) := by
      rw [List.getElem?_eq_getElem hi] at hentry
      exact Option.some.inj hentry
    have hsplit : dates.zip (newData.map convert) =
        (dates.zip (newData.map convert)).take i ++
          (d, v) :: (dates.zip (newData.map convert)).drop (i + 1) := by
      rw [← hget, List.getElem_cons_drop _ i hi, List.take_append_drop]
    have hnot : d ∉ ((dates.zip (newData.map convert)).drop (i + 1)).map Prod.fst := by
      intro hin
      obtain ⟨e, he, hed⟩ := List.mem_map.mp hin
      obtain ⟨j, hj, hje⟩ := List.mem_drop_iff_getElem.mp he
      have hj2 : (dates.zip (newData.map convert))[i + 1 + j]? = some e := by
        rw [List.getElem?_eq_getElem (by omega), hje]
      have := (List.getElem?_zip_eq_some.mp hj2).1
      rw [hed] at this
      exact hlast (i + 1 + j) (by omega) this
    apply QMap.mem_of_find
    rw [hsplit]
    exact assignAll_find_last _ _ d v [] hnot
  · rw [hcount]
    exact (List.dedup_sublist dates).length_le
  · constructor
    · intro hkeys
      rw [← hkeys]
      exact hsorted
    · intro hasc
      have hasc2 := dailyLoop_ascending convert dates newData hasc dates.length (le_refl _) hlen
      rw [hloop] at hasc2
      rw [Option.some.inj hasc2, List.take_length]
      exact List.map_fst_zip _ _ (by simp [List.length_take, hlen])

/-- The assignments of dates in any order, with values at least as many. -/
theorem assignAll_storesLast {γ : Type} (dates : List QDate) (values : List γ)
    (hlen : dates.length ≤ values.length) :
    StoresLastPerDate dates values (assignAll (dates.zip values) []) := by
  obtain ⟨stored, hloop, hstored⟩ := dailyLoop_any_order (id : γ → γ) dates values hlen
  have hall := dailyLoop_assignAll (id : γ → γ) dates values dates.length (le_refl _) hlen
  have hPlen : (dates.zip values).length = dates.length := by
    simp only [List.length_zip]
    omega
  rw [List.map_id] at hall hstored
  rw [← hPlen, List.take_length] at hall
  rw [hPlen, hloop] at hall
  rw [← Option.some.inj hall]
  exact hstored

/-- The loop of `setDailyWeatherConditions` is the sequence of its assignments of
descriptions, and leaves every description of the table as it was. -/
theorem weatherLoop_assignAll (dates : List QDate) (newData : List Int)
    (table : QMap Int String) (n : Nat) (hn : n ≤ dates.length) (hd : n ≤ newData.length) :
    ∃ grown, forCounter n (weatherStep dates newData) (table, []) =
        some (grown,
          assignAll ((dates.zip (newData.map (weatherDescription table))).take n) []) ∧
      ∀ c, weatherDescription grown c = weatherDescription table c := by
  induction n with
  | zero => exact ⟨table, rfl, fun _ => rfl⟩
  | succ k ih =>
    have hk1 : k < dates.length := by omega
    have hk2 : k < newData.length := by omega
    have hk3 : k < (dates.zip (newData.map (weatherDescription table))).length := by
      simp only [List.length_zip, List.length_map]
      omega
    obtain ⟨grown, ih1, hinv⟩ := ih (by omega) (by omega)
    simp only [forCounter] at ih1
    refine ⟨(QMap.subscript grown newData[k]).2, ?_, ?_⟩
    · simp only [forCounter, List.range_succ, List.foldlM_append, List.foldlM_cons,
        List.foldlM_nil, ih1]
      have hentry : (dates.zip (newData.map (weatherDescription table)))[k] =
          (dates[k], weatherDescription table newData[k]) := by
        simp
      have hstep : weatherStep dates newData
          (grown, assignAll ((dates.zip (newData.map (weatherDescription table))).take k) [])
          k =
          some ((QMap.subscript grown newData[k]).2,
            QMap.assign dates[k] (weatherDescription table newData[k])
              (assignAll ((dates.zip (newData.map (weatherDescription table))).take k)
                [])) := by
        simp only [weatherStep, List.getElem?_eq_getElem hk1, List.getElem?_eq_getElem hk2]
        rw [← hinv newData[k]]
        rfl
      rw [List.take_succ, List.getElem?_eq_getElem hk3, hentry]
      simp only [Option.some_bind, Option.bind_eq_bind, hstep, Option.some.injEq, pure]
      simp [assignAll, List.foldl_append]
    · intro c
      rw [weatherDescription_subscript]
      exact hinv c

/-- `setDailyWeatherConditions` on dates in any order, with codes at least as many. -/
theorem weatherLoop_any_order (dates : List QDate) (newData : List Int)
    (table : QMap Int String) (hlen : dates.length ≤ newData.length) :
    ∃ grown stored, forCounter dates.length (weatherStep dates newData) (table, []) =
        some (grown, stored) ∧
      StoresLastPerDate dates (newData.map (weatherDescription table)) stored ∧
      ∀ c, weatherDescription grown c = weatherDescription table c := by
  obtain ⟨grown, hloop, hinv⟩ :=
    weatherLoop_assignAll dates newData table dates.length (le_refl _) hlen
  have hPlen : (dates.zip (newData.map (weatherDescription table))).length = dates.length := by
    simp only [List.length_zip, List.length_map]
    omega
  rw [← hPlen, List.take_length] at hloop
  rw [hPlen] at hloop
  exact ⟨grown, _, hloop,
    assignAll_storesLast dates (newData.map (weatherDescription table))
      (by simp only [List.length_map]; exact hlen), hinv⟩

/-- C22: for dates in any order, possibly repeated, and a data list at least as
long, `setDates` followed by any of the five daily setters
(`setDailyPrecipitation`, `setDailyWindSpeed`, `setDailyWindGusts`,
`setDailyWindDirection`, `setDailyWeatherConditions`) returns; the matching
getter returns the values of the stored map, which has one entry per distinct
date in ascending date order, holding for each date the value (for wind
direction the compass point, for weather conditions the description of the
code) at its last position in the list; so the getter has as many entries as
there are distinct dates, at most as many as `getDates()`, and its entries go
with `getDates()` position by position exactly when the dates are strictly
ascending. -/
theorem daily_getter_one_value_per_date (m : Mountain) (dates : List QDate)
    (data : List Double) (directions : List Int) (codes : List Int)
    (hlen : dates.length ≤ data.length) (hdirections : dates.length ≤ directions.length)
    (hcodes : dates.length ≤ codes.length) :
    (∃ m1, (m.setDates dates).setDailyPrecipitation data = some m1 ∧ m1.getDates = dates ∧
        m1.getDailyPrecipitation = QMap.values m1.m_precipitation_daily ∧
        StoresLastPerDate dates data m1.m_precipitation_daily ∧
        m1.getDailyPrecipitation.length = dates.dedup.length ∧
        m1.getDailyPrecipitation.length ≤ m1.getDates.length) ∧
      (∃ m1, (m.setDates dates).setDailyWindSpeed data = some m1 ∧ m1.getDates = dates ∧
        m1.getDailyWindSpeed = QMap.values m1.m_windspeed_daily ∧
        StoresLastPerDate dates data m1.m_windspeed_daily ∧
        m1.getDailyWindSpeed.length = dates.dedup.length ∧
        m1.getDailyWindSpeed.length ≤ m1.getDates.length) ∧
      (∃ m1, (m.setDates dates).setDailyWindGusts data = some m1 ∧ m1.getDates = dates ∧
        m1.getDailyWindGusts = QMap.values m1.m_windgusts_daily ∧
        StoresLastPerDate dates data m1.m_windgusts_daily ∧
        m1.getDailyWindGusts.length = dates.dedup.length ∧
        m1.getDailyWindGusts.length ≤ m1.getDates.length) ∧
      (∃ m1, (m.setDates dates).setDailyWindDirection directions = some m1 ∧
        m1.getDates = dates ∧
        m1.getDailyWindDirection = QMap.values m1.m_winddirection_daily ∧
        StoresLastPerDate dates (directions.map convertWindDirectionToOrientation)
          m1.m_winddirection_daily ∧
        m1.getDailyWindDirection.length = dates.dedup.length ∧
        m1.getDailyWindDirection.length ≤ m1.getDates.length) ∧
      (∃ m1, (m.setDates dates).setDailyWeatherConditions codes = some m1 ∧
        m1.getDates = dates ∧
        m1.getDailyWeatherConditions = QMap.values m1.m_weatherconditions_daily ∧
        StoresLastPerDate dates (codes.map (weatherDescription m.m_dailyConditionsMap))
          m1.m_weatherconditions_daily ∧
        m1.getDailyWeatherConditions.length = dates.dedup.length ∧
        m1.getDailyWeatherConditions.length ≤ m1.getDates.length ∧
        ∀ c, weatherDescription m1.m_dailyConditionsMap c =
          weatherDescription m.m_dailyConditionsMap c) := by
  obtain ⟨stored, hloop, hstored⟩ :=
    dailyLoop_any_order (id : Double → Double) dates data hlen
  rw [List.map_id] at hstored
  obtain ⟨storedD, hloopD, hstoredD⟩ :=
    dailyLoop_any_order convertWindDirectionToOrientation dates directions hdirections
  obtain ⟨grown, storedW, hloopW, hstoredW, hinv⟩ :=
    weatherLoop_any_order dates codes m.m_dailyConditionsMap hcodes
  refine ⟨⟨{ m.setDates dates with m_precipitation_daily := stored }, ?_, rfl, rfl, hstored,
      hstored.2.2.2.1, hstored.2.2.2.2.1⟩,
    ⟨{ m.setDates dates with m_windspeed_daily := stored }, ?_, rfl, rfl, hstored,
      hstored.2.2.2.1, hstored.2.2.2.2.1⟩,
    ⟨{ m.setDates dates with m_windgusts_daily := stored }, ?_, rfl, rfl, hstored,
      hstored.2.2.2.1, hstored.2.2.2.2.1⟩,
    ⟨{ m.setDates dates with m_winddirection_daily := storedD }, ?_, rfl, rfl, hstoredD,
      hstoredD.2.2.2.1, hstoredD.2.2.2.2.1⟩,
    ⟨{ m.setDates dates with
        m_dailyConditionsMap := grown, m_weatherconditions_daily := storedW },
      ?_, rfl, rfl, hstoredW, hstoredW.2.2.2.1, hstoredW.2.2.2.2.1, hinv⟩⟩
  · simp only [Mountain.setDailyPrecipitation, Mountain.setDates, hloop]
    rfl
  · simp only [Mountain.setDailyWindSpeed, Mountain.setDates, hloop]
    rfl
  · simp only [Mountain.setDailyWindGusts, Mountain.setDates, hloop]
    rfl
  · simp only [Mountain.setDailyWindDirection, Mountain.setDates, hloopD]
    rfl
  · simp only [Mountain.setDailyWeatherConditions, Mountain.setDates, hloopW]
    rfl

/-- C22 on the dates 3, 1, 3, 2 with five values and with the codes 0, 95, 4, 45:
three entries, for the dates 1, 2, 3, the one for date 3 from its second
position. -/
theorem daily_getter_one_value_per_date_witness :
    (((Mountain.new "Ben Nevis" 0 0 0).setDates [3, 1, 3, 2]).setDailyPrecipitation
        [10, 20, 30, 40, 50]).map Mountain.getDailyPrecipitation = some [20, 40, 30] ∧
      (((Mountain.new "Ben Nevis" 0 0 0).setDates [3, 1, 3, 2]).setDailyWeatherConditions
        [0, 95, 4, 45]).map Mountain.getDailyWeatherConditions =
        some ["Thunderstorms", "Fog", ""] ∧
      (∃ m1, ((Mountain.new "Ben Nevis" 0 0 0).setDates [3, 1, 3, 2]).setDailyPrecipitation
          [10, 20, 30, 40, 50] = some m1 ∧ m1.getDates = [3, 1, 3, 2] ∧
        m1.getDailyPrecipitation = QMap.values m1.m_precipitation_daily ∧
        StoresLastPerDate [3, 1, 3, 2] [10, 20, 30, 40, 50] m1.m_precipitation_daily ∧
        m1.getDailyPrecipitation.length = ([3, 1, 3, 2] : List QDate).dedup.length ∧
        m1.getDailyPrecipitation.length ≤ m1.getDates.length) ∧
      ∃ m1, ((Mountain.new "Ben Nevis" 0 0 0).setDates [3, 1, 3, 2]).setDailyWeatherConditions
          [0, 95, 4, 45] = some m1 ∧ m1.getDates = [3, 1, 3, 2] ∧
        m1.getDailyWeatherConditions = QMap.values m1.m_weatherconditions_daily ∧
        StoresLastPerDate [3, 1, 3, 2]
          (([0, 95, 4, 45] : List Int).map
            (weatherDescription (Mountain.new "Ben Nevis" 0 0 0).m_dailyConditionsMap))
          m1.m_weatherconditions_daily ∧
        m1.getDailyWeatherConditions.length = ([3, 1, 3, 2] : List QDate).dedup.length ∧
        m1.getDailyWeatherConditions.length ≤ m1.getDates.length ∧
        ∀ c, weatherDescription m1.m_dailyConditionsMap c =
          weatherDescription (Mountain.new "Ben Nevis" 0 0 0).m_dailyConditionsMap c :=
  ⟨by decide, by decide,
    (daily_getter_one_value_per_date (Mountain.new "Ben Nevis" 0 0 0) [3, 1, 3, 2]
      [10, 20, 30, 40, 50] [0, 90, 180, 270] [0, 95, 4, 45] (by decide) (by decide)
      (by decide)).1,
    (daily_getter_one_value_per_date (Mountain.new "Ben Nevis" 0 0 0) [3, 1, 3, 2]
      [10, 20, 30, 40, 50] [0, 90, 180, 270] [0, 95, 4, 45] (by decide) (by decide)
      (by decide)).2.2.2.2⟩

end QtWeatherApp
